import Mathlib

set_option maxRecDepth 16384

/-!
Verification development for the FSC-tools repository (CC3+ symbol catalog
writer).  The definitions below are a shallow embedding of `FSCtypes.py`
(packed little-endian C structures built with Python ctypes) and of the
grouping logic of `FSC_create_symbol_catalog.py`.

Modelling conventions:
* byte sequences are `List Nat` (each element a byte value);
* fixed-width `c_char` arrays are stored as the assigned byte string and
  serialized through `padToD`, which pads with zeros to the declared width
  exactly as ctypes does; assigning a byte string longer than the field
  raises `ValueError` in ctypes, modelled by `PyErr.valueError`;
* `c_float` fields hold the exact rational value computed by the Python
  expression; serialization converts it to IEEE-754 binary32
  (round-to-nearest-even) via `f32bits`;
* Python exceptions are modelled with `Except PyErr`;
* the filesystem is a function from paths to optional file contents;
* strings are `List Char`; paths follow POSIX `os.path` semantics.
-/

/-- Little-endian serialization of a natural number into `w` bytes
(the value is taken modulo `2 ^ (8 * w)`, as ctypes stores it). -/
def bytesLE : Nat → Nat → List Nat
  | 0, _ => []
  | w + 1, v => v % 256 :: bytesLE w (v / 256)

/-- Zero-padding of a list to a fixed width `w` with filler `d`
(mirrors a ctypes fixed-size array: always exactly `w` elements). -/
def padToD {α : Type} (w : Nat) (d : α) (l : List α) : List α :=
  l.take w ++ List.replicate (w - l.length) d

/-- Read a little-endian 32-bit unsigned value from the first four bytes of a
byte sequence (how a reader recovers the record-length field). -/
def readU32LE : List Nat → Nat
  | b0 :: b1 :: b2 :: b3 :: _ => b0 + 256 * (b1 + 256 * (b2 + 256 * b3))
  | _ => 0

/-- Big-endian 32-bit read of exactly four bytes (`struct.unpack(b'>LL', ...)`
reads each of the two PNG dimension fields this way). -/
def beU32 : List Nat → Nat
  | [a, b, c, d] => ((a * 256 + b) * 256 + c) * 256 + d
  | _ => 0

/-- UTF-8 encoding of a single character (Python `str.encode('utf-8')`). -/
def utf8Bytes (c : Char) : List Nat :=
  let n := c.toNat
  if n < 128 then [n]
  else if n < 2048 then [192 + n / 64, 128 + n % 64]
  else if n < 65536 then [224 + n / 4096, 128 + n / 64 % 64, 128 + n % 64]
  else [240 + n / 262144, 128 + n / 4096 % 64, 128 + n / 64 % 64, 128 + n % 64]

/-- UTF-8 encoding of a string (`str.encode('utf-8')`). -/
def utf8 (s : List Char) : List Nat :=
  (s.map utf8Bytes).flatten

/-- Round a rational to the nearest integer, ties to even
(the rounding mode used for IEEE-754 conversions). -/
def qRound (q : ℚ) : ℤ :=
  let f : ℤ := ⌊q⌋
  let r : ℚ := q - (f : ℚ)
  if r < 1 / 2 then f
  else if 1 / 2 < r then f + 1
  else if f % 2 = 0 then f else f + 1

/-- Floor of the base-2 logarithm of a positive rational. -/
def qLog2 (q : ℚ) : ℤ :=
  let e0 : ℤ := (Nat.log2 q.num.natAbs : ℤ) - (Nat.log2 q.den : ℤ)
  if (2 : ℚ) ^ e0 ≤ q then e0 else e0 - 1

/-- IEEE-754 binary32 bit pattern (as a natural number) of a rational, with
round-to-nearest-even, subnormals, and overflow to infinity.  This is the
value a `c_float` field holds after assignment. -/
def f32bits (q : ℚ) : Nat :=
  let s : Nat := if q < 0 then 2 ^ 31 else 0
  let a : ℚ := |q|
  if a = 0 then s
  else
    let e : ℤ := qLog2 a
    let p : ℤ := max (e - 23) (-149)
    let m0 : ℤ := qRound (a * (2 : ℚ) ^ (-p))
    let mp : ℤ × ℤ := if m0 = 2 ^ 24 then (2 ^ 23, p + 1) else (m0, p)
    if mp.1 = 0 then s
    else if mp.1 < 2 ^ 23 then s + mp.1.toNat
    else
      let E : ℤ := mp.2 + 150
      if 255 ≤ E then s + 255 * 2 ^ 23
      else s + E.toNat * 2 ^ 23 + (mp.1.toNat - 2 ^ 23)

/-- Serialization of a `c_float` field: four little-endian bytes of its
binary32 bit pattern. -/
def f32le (q : ℚ) : List Nat :=
  bytesLE 4 (f32bits q)

/-! Constants from `FSCtypes.py` (taken from the FastCAD v6 SDK headers). -/

def ET_XP : Nat := 4
def ET_SYMDEF : Nat := 28
def XPID_PICTR : Nat := 0xA004
def XT_PICTR : Nat := 1
def XPID_SYMINFO : Nat := 0xA00B
def XT_SYMINFO : Nat := 97
def PF_NO_OUTLINE : Nat := 1
def PF_RESINFO_VALID : Nat := 4
def PF_RESINFO_ONLY1 : Nat := 8
def PICTR_VERSION : Nat := 0
def SYMINFO_VERSION : Nat := 1
def SF_GROUPED : Nat := 0x00000002
def SF_VARICOLOR : Nat := 0x00000004
def SGF_VARICOLOR : Nat := 0x00000080
def SGF_RANDOM : Nat := 0x00000100
def EF_CSREF : Nat := 0x08

/-- `IMGXFRMODE.IMGX_ALPHA`. -/
def IMGX_ALPHA : Nat := 2

/-! Structure sizes.  `_pack_ = 1`, so each size is the plain sum of the
field widths; `XT_Entities.h` confirms 28 / 511 / 406 by `static_assert`. -/

/-- `sizeof(CSTUFF)`: 4+1+1+1+1+1+1+2+2+2+2+2+4+4. -/
def sizeofCSTUFF : Nat := 28

/-- `sizeof(SYMDEF)`: 28 (CSTUFF) + 12 (Low) + 12 (Hi) + 4 (Flags) + 32 (SName). -/
def sizeofSYMDEF : Nat := 88

/-- `sizeof(Marker)`: 4 (ERLen) + 1 (MType). -/
def sizeofMarker : Nat := 5

/-- `sizeof(PICTR)`: 28+2+1+4+4+4+4+4+8+4+4+4+4+4+48+128+256. -/
def sizeofPICTR : Nat := 511

/-- `sizeof(SYMINFO)`: 28+2+1+2+4+4+4+4+4+16+8+4+16+4+49+64+128+64. -/
def sizeofSYMINFO : Nat := 406

/-- Python exceptions that the modelled code can raise. -/
inductive PyErr where
  /-- `ValueError` (ctypes: byte string longer than the char-array field). -/
  | valueError
  /-- `TypeError` (`float(None)` after a failed dimension lookup). -/
  | typeError
  /-- `struct.error` (`struct.unpack` on fewer than 8 bytes). -/
  | structError
deriving DecidableEq

/-- The common entity header (`CSTUFF`): all integer fields hold the
non-negative values this program assigns, `LWidth` is a `c_float`. -/
structure CSTUFF where
  ERLen : Nat
  EType : Nat
  EFlags : Nat
  EFlags2 : Nat
  EColor : Nat
  EColor2 : Nat
  EThick : Nat
  WPlane : Nat
  ELayer : Nat
  ELStyle : Nat
  GroupID : Nat
  EFStyle : Nat
  LWidth : ℚ
  Tag : Nat
deriving DecidableEq

/-- `CSTUFF.__init__(len, type)`: stores the given record length and type and
the default values common in CC3+. -/
def CSTUFF.init (len ty : Nat) : CSTUFF :=
  { ERLen := len, EType := ty, EFlags := 0, EFlags2 := 0, EColor := 224,
    EColor2 := 224, EThick := 0, WPlane := 0, ELayer := 256, ELStyle := 0,
    GroupID := 0, EFStyle := 1, LWidth := 0, Tag := 0 }

/-- Byte layout of `CSTUFF` (packed little-endian). -/
def CSTUFF.encode (c : CSTUFF) : List Nat :=
  bytesLE 4 c.ERLen ++ bytesLE 1 c.EType ++ bytesLE 1 c.EFlags ++
  bytesLE 1 c.EFlags2 ++ bytesLE 1 c.EColor ++ bytesLE 1 c.EColor2 ++
  bytesLE 1 c.EThick ++ bytesLE 2 c.WPlane ++ bytesLE 2 c.ELayer ++
  bytesLE 2 c.ELStyle ++ bytesLE 2 c.GroupID ++ bytesLE 2 c.EFStyle ++
  f32le c.LWidth ++ bytesLE 4 c.Tag

/-- A 3-D point of `c_float` coordinates (`GPOINT3`). -/
structure GPOINT3 where
  x : ℚ
  y : ℚ
  z : ℚ
deriving DecidableEq

/-- Byte layout of `GPOINT3`. -/
def GPOINT3.encode (p : GPOINT3) : List Nat :=
  f32le p.x ++ f32le p.y ++ f32le p.z

/-- A 2-D point of `c_float` coordinates (`GPOINT2`). -/
structure GPOINT2 where
  x : ℚ
  y : ℚ
deriving DecidableEq

/-- Byte layout of `GPOINT2`. -/
def GPOINT2.encode (p : GPOINT2) : List Nat :=
  f32le p.x ++ f32le p.y

/-- The symbol definition record (`SYMDEF`). -/
structure SYMDEF where
  CStuff : CSTUFF
  Low : GPOINT3
  Hi : GPOINT3
  Flags : Nat
  SName : List Nat
deriving DecidableEq

/-- `SYMDEF.__init__`: zero-initialized apart from the entity header, whose
record length is `sizeof(SYMDEF)`. -/
def SYMDEF.init : SYMDEF :=
  { CStuff := CSTUFF.init sizeofSYMDEF ET_SYMDEF,
    Low := ⟨0, 0, 0⟩, Hi := ⟨0, 0, 0⟩, Flags := 0, SName := [] }

/-- Byte layout of `SYMDEF`. -/
def SYMDEF.encode (s : SYMDEF) : List Nat :=
  s.CStuff.encode ++ s.Low.encode ++ s.Hi.encode ++ bytesLE 4 s.Flags ++
  padToD 32 0 s.SName

/-- A 5-byte boundary marker record (`Marker`). -/
structure Marker where
  ERLen : Nat
  MType : Nat
deriving DecidableEq

/-- `Marker.__init__(m_type_value)`: the length field is always
`sizeof(Marker)`, which is 5 bytes. -/
def Marker.init (t : Nat) : Marker :=
  { ERLen := sizeofMarker, MType := t }

/-- Byte layout of `Marker`. -/
def Marker.encode (m : Marker) : List Nat :=
  bytesLE 4 m.ERLen ++ bytesLE 1 m.MType

/-- A resolution-info slot (`RESINFO`): presence flag plus width and height. -/
structure RESINFO where
  Present : Nat
  width : Nat
  height : Nat
deriving DecidableEq

/-- Byte layout of `RESINFO`: 4+4+4 bytes. -/
def RESINFO.encode (r : RESINFO) : List Nat :=
  bytesLE 4 r.Present ++ bytesLE 4 r.width ++ bytesLE 4 r.height

/-- The picture record (`PICTR`). -/
structure PICTR where
  CStuff : CSTUFF
  XPId : Nat
  XType : Nat
  Version : Nat
  Flags : Nat
  Mode : Nat
  bmwid : Nat
  bmhgt : Nat
  Cen : GPOINT2
  Bearing : ℚ
  RWid : ℚ
  RHgt : ℚ
  TColor : Nat
  Alpha : Nat
  ResInfo : List RESINFO
  Reserve : List Nat
  BMPName : List Nat
deriving DecidableEq

/-- `PICTR.__init__`: zero-initialized apart from the entity header (record
length `sizeof(PICTR)`, type `ET_XP`) and the format-mandated defaults. -/
def PICTR.init : PICTR :=
  { CStuff := CSTUFF.init sizeofPICTR ET_XP,
    XPId := XPID_PICTR, XType := XT_PICTR, Version := PICTR_VERSION,
    Flags := PF_NO_OUTLINE ||| PF_RESINFO_ONLY1 ||| PF_RESINFO_VALID,
    Mode := IMGX_ALPHA, bmwid := 0, bmhgt := 0, Cen := ⟨0, 0⟩,
    Bearing := 0, RWid := 0, RHgt := 0, TColor := 0, Alpha := 0,
    ResInfo := List.replicate 4 ⟨0, 0, 0⟩,
    Reserve := List.replicate 32 0, BMPName := [] }

/-- Byte layout of `PICTR`. -/
def PICTR.encode (p : PICTR) : List Nat :=
  p.CStuff.encode ++ bytesLE 2 p.XPId ++ bytesLE 1 p.XType ++
  bytesLE 4 p.Version ++ bytesLE 4 p.Flags ++ bytesLE 4 p.Mode ++
  bytesLE 4 p.bmwid ++ bytesLE 4 p.bmhgt ++ p.Cen.encode ++
  f32le p.Bearing ++ f32le p.RWid ++ f32le p.RHgt ++ bytesLE 4 p.TColor ++
  bytesLE 4 p.Alpha ++
  ((padToD 4 ⟨0, 0, 0⟩ p.ResInfo).map RESINFO.encode).flatten ++
  ((padToD 32 0 p.Reserve).map (bytesLE 4)).flatten ++
  padToD 256 0 p.BMPName

/-- The symbol information record (`SYMINFO`). -/
structure SYMINFO where
  CStuff : CSTUFF
  XPId : Nat
  XType : Nat
  Version : Nat
  Flags : Nat
  Flags2 : Nat
  RotA : ℚ
  RotB : ℚ
  TFlags : Nat
  ScaleAX : ℚ
  ScaleBX : ℚ
  ScaleAY : ℚ
  ScaleBY : ℚ
  ShearA : ℚ
  ShearB : ℚ
  unused1 : List Nat
  OffsetHiX : ℚ
  OffsetHiY : ℚ
  OffsetLowX : ℚ
  OffsetLowY : ℚ
  GFlags : Nat
  unused2 : List Nat
  Sheet : List Nat
  DrawToolName : List Nat
  unused3 : List Nat
deriving DecidableEq

/-- `SYMINFO.__init__`: zero-initialized apart from the entity header (record
length `sizeof(SYMINFO)`, type `ET_XP`) and the sub-protocol constants. -/
def SYMINFO.init : SYMINFO :=
  { CStuff := CSTUFF.init sizeofSYMINFO ET_XP,
    XPId := XPID_SYMINFO, XType := XT_SYMINFO, Version := SYMINFO_VERSION,
    Flags := 0, Flags2 := 0, RotA := 0, RotB := 0, TFlags := 0,
    ScaleAX := 0, ScaleBX := 0, ScaleAY := 0, ScaleBY := 0,
    ShearA := 0, ShearB := 0, unused1 := [],
    OffsetHiX := 0, OffsetHiY := 0, OffsetLowX := 0, OffsetLowY := 0,
    GFlags := 0, unused2 := [], Sheet := [], DrawToolName := [],
    unused3 := [] }

/-- Byte layout of `SYMINFO`. -/
def SYMINFO.encode (s : SYMINFO) : List Nat :=
  s.CStuff.encode ++ bytesLE 2 s.XPId ++ bytesLE 1 s.XType ++
  bytesLE 2 s.Version ++ bytesLE 4 s.Flags ++ bytesLE 4 s.Flags2 ++
  f32le s.RotA ++ f32le s.RotB ++ bytesLE 4 s.TFlags ++
  f32le s.ScaleAX ++ f32le s.ScaleBX ++ f32le s.ScaleAY ++ f32le s.ScaleBY ++
  f32le s.ShearA ++ f32le s.ShearB ++ padToD 4 0 s.unused1 ++
  f32le s.OffsetHiX ++ f32le s.OffsetHiY ++ f32le s.OffsetLowX ++
  f32le s.OffsetLowY ++ bytesLE 4 s.GFlags ++ padToD 49 0 s.unused2 ++
  padToD 64 0 s.Sheet ++ padToD 128 0 s.DrawToolName ++ padToD 64 0 s.unused3

/-- The 128-byte catalog file header (`FileID`). -/
structure FileID where
  ProgID : List Nat
  VerText : List Nat
  VerTextS : List Nat
  Padding : List Nat
  Special : List Nat
  DBVer : Nat
  Compressed : Nat
  Filler : List Nat
  EndMarker : Nat
deriving DecidableEq

/-- `FileID.__init__`: the constant header contents written by the tool. -/
def FileID.init : FileID :=
  { ProgID := utf8 ("FCW (FastCAD for Windows) ").toList,
    VerText := utf8 ("6.20").toList,
    VerTextS := utf8 (".0").toList,
    Padding := [0x0D, 0x0A, 0x1A, 0x69, 0x6E, 0x67, 0x20, 0x66, 0x69, 0x6C,
                0x65, 0x2E],
    Special := [13, 10, 26],
    DBVer := 24,
    Compressed := 0,
    Filler := [0, 0, 0, 0, 0, 0, 0, 0, 0, 0, 0, 0, 0, 0, 0, 0x7E,
               0x7E, 0x7E, 0x7E, 0x7E, 0x7E, 0x7E, 0x7E, 0x7E, 0x7E, 0x7E,
               0, 0, 0, 0, 0, 0,
               0, 0, 0, 0, 0, 0, 0, 0, 0, 0, 0, 0, 0, 0, 0, 0,
               0, 0, 0, 0, 0, 0, 0, 0, 0, 0, 0, 0, 0, 0, 0, 0,
               0, 0, 0, 0, 0, 0, 0, 0, 0, 0, 0, 0, 0, 0],
    EndMarker := 0xFF }

/-- Byte layout of `FileID` (26+4+2+12+3+1+1+78+1 = 128 bytes). -/
def FileID.encode (f : FileID) : List Nat :=
  padToD 26 0 f.ProgID ++ padToD 4 0 f.VerText ++ padToD 2 0 f.VerTextS ++
  padToD 12 0 f.Padding ++ padToD 3 0 f.Special ++ bytesLE 1 f.DBVer ++
  bytesLE 1 f.Compressed ++ padToD 78 0 f.Filler ++ bytesLE 1 f.EndMarker

/-- The catalog output stream: the header is written first, then the opaque
info blocks, then the concatenated symbol entities (the `__main__` write
block of `FSC_create_symbol_catalog.py`). -/
def catalogOutput (infoblocks symbols : List Nat) : List Nat :=
  FileID.encode FileID.init ++ infoblocks ++ symbols

/-! The two composite symbol entities. -/

/-- A standard single-image symbol (`SimpleSymbol`): the five component
records in the packed struct order. -/
structure SimpleSymbol where
  symbol_definition : SYMDEF
  start_marker : Marker
  picture_info : PICTR
  symbol_info : SYMINFO
  end_marker : Marker
deriving DecidableEq

/-- Byte layout of `SimpleSymbol` (`_pack_ = 1`: plain concatenation). -/
def SimpleSymbol.encode (s : SimpleSymbol) : List Nat :=
  s.symbol_definition.encode ++ s.start_marker.encode ++
  s.picture_info.encode ++ s.symbol_info.encode ++ s.end_marker.encode

/-- A two-image varicolor symbol (`VaricolorSymbol`). -/
structure VaricolorSymbol where
  symbol_definition : SYMDEF
  start_marker : Marker
  picture1_info : PICTR
  picture2_info : PICTR
  symbol_info : SYMINFO
  end_marker : Marker
deriving DecidableEq

/-- Byte layout of `VaricolorSymbol` (`_pack_ = 1`: plain concatenation). -/
def VaricolorSymbol.encode (v : VaricolorSymbol) : List Nat :=
  v.symbol_definition.encode ++ v.start_marker.encode ++
  v.picture1_info.encode ++ v.picture2_info.encode ++
  v.symbol_info.encode ++ v.end_marker.encode

/-! The PNG dimension helper and the filesystem model. -/

/-- Strings are lists of characters. -/
abbrev Str := List Char

/-- A filesystem: maps a path to the file's bytes, or `none` if missing. -/
abbrev FileSys := Str → Option (List Nat)

/-- Generic list-starts-with test. -/
def startsW {α : Type} [DecidableEq α] : List α → List α → Bool
  | [], _ => true
  | _ :: _, [] => false
  | a :: as, b :: bs => a = b && startsW as bs

/-- The 8-byte PNG signature. -/
def pngSig : List Nat := [137, 80, 78, 71, 13, 10, 26, 10]

/-- The ASCII bytes of `IHDR`. -/
def ihdrTag : List Nat := [73, 72, 68, 82]

/-- `png_dimensions(file_path)`: reads the first 24 bytes; on a valid
signature and `IHDR` chunk it unpacks the big-endian width and height.
A missing file (`FileNotFoundError`) and an invalid header (`ValueError`)
are caught and reported as `(None, None)`, modelled by `.ok none`.  A file
that passes both checks but is shorter than 24 bytes makes
`struct.unpack` raise `struct.error`, which the function does not catch. -/
def png_dimensions (fs : FileSys) (p : Str) : Except PyErr (Option (Nat × Nat)) :=
  match fs p with
  | none => .ok none
  | some bs =>
    let data := bs.take 24
    if startsW pngSig data && decide ((data.drop 12).take 4 = ihdrTag) then
      if data.length < 24 then .error .structError
      else .ok (some (beU32 ((data.drop 16).take 4), beU32 ((data.drop 20).take 4)))
    else .ok none

/-- The pure assembly of a `SimpleSymbol` from the already-encoded name and
path bytes, the group flag, and the image pixel dimensions — exactly the
field assignments of `SimpleSymbol.__init__`. -/
def mkSimpleSymbol (nb fb : List Nat) (isGroup : Bool) (w h : Nat) :
    SimpleSymbol :=
  { symbol_definition :=
      { CStuff := CSTUFF.init sizeofSYMDEF ET_SYMDEF,
        Low := ⟨0, 0, 0⟩,
        Hi := ⟨(w : ℚ) / 40, (h : ℚ) / 40, 0⟩,
        Flags := 0, SName := nb },
    start_marker := Marker.init 0,
    picture_info :=
      { PICTR.init with BMPName := fb, RWid := (w : ℚ) / 40,
                        RHgt := (h : ℚ) / 40 },
    symbol_info :=
      { SYMINFO.init with
          ScaleAX := 1, ScaleAY := 1, ScaleBX := 1, ScaleBY := 1,
          Flags := if isGroup then SF_GROUPED else 0,
          GFlags := if isGroup then SGF_RANDOM else 0 },
    end_marker := Marker.init 1 }

/-- `SimpleSymbol.__init__(name, file, isGroup)`: assigns the name (ctypes
raises `ValueError` past 32 bytes), looks up the PNG dimensions
(`float(None)` raises `TypeError` when the lookup failed), assigns the
path (`ValueError` past 256 bytes), and fills the five records. -/
def SimpleSymbol.init (fs : FileSys) (name file : Str) (isGroup : Bool) :
    Except PyErr SimpleSymbol :=
  let nb := utf8 name
  if 32 < nb.length then .error .valueError
  else
    match png_dimensions fs file with
    | .error e => .error e
    | .ok none => .error .typeError
    | .ok (some (w, h)) =>
      let fb := utf8 file
      if 256 < fb.length then .error .valueError
      else .ok (mkSimpleSymbol nb fb isGroup w h)

/-- The pure assembly of a `VaricolorSymbol` — exactly the field assignments
of `VaricolorSymbol.__init__`. -/
def mkVaricolorSymbol (nb fb1 fb2 : List Nat) (isGroup : Bool)
    (w1 h1 w2 h2 : Nat) : VaricolorSymbol :=
  { symbol_definition :=
      { CStuff := CSTUFF.init sizeofSYMDEF ET_SYMDEF,
        Low := ⟨0, 0, 0⟩,
        Hi := ⟨(w1 : ℚ) / 40, (h1 : ℚ) / 40, 0⟩,
        Flags := 0, SName := nb },
    start_marker := Marker.init 0,
    picture1_info :=
      { PICTR.init with BMPName := fb1, RWid := (w1 : ℚ) / 40,
                        RHgt := (h1 : ℚ) / 40 },
    picture2_info :=
      { PICTR.init with BMPName := fb2, RWid := (w2 : ℚ) / 40,
                        RHgt := (h2 : ℚ) / 40,
                        CStuff := { CSTUFF.init sizeofPICTR ET_XP with
                                      EFlags := EF_CSREF } },
    symbol_info :=
      { SYMINFO.init with
          Flags := if isGroup then SF_VARICOLOR ||| SF_GROUPED
                   else SF_VARICOLOR,
          ScaleAX := 1, ScaleAY := 1, ScaleBX := 1, ScaleBY := 1,
          GFlags := if isGroup then SGF_VARICOLOR ||| SGF_RANDOM else 0 },
    end_marker := Marker.init 1 }

/-- `VaricolorSymbol.__init__(name, file1, file2, isGroup)`: same flow as the
simple constructor, with the second picture's dimensions looked up after its
path has been assigned, and its entity-header flag byte set to `EF_CSREF`
(the colorization-mask marker). -/
def VaricolorSymbol.init (fs : FileSys) (name file1 file2 : Str)
    (isGroup : Bool) : Except PyErr VaricolorSymbol :=
  let nb := utf8 name
  if 32 < nb.length then .error .valueError
  else
    match png_dimensions fs file1 with
    | .error e => .error e
    | .ok none => .error .typeError
    | .ok (some (w1, h1)) =>
      let fb1 := utf8 file1
      if 256 < fb1.length then .error .valueError
      else
        let fb2 := utf8 file2
        if 256 < fb2.length then .error .valueError
        else
          match png_dimensions fs file2 with
          | .error e => .error e
          | .ok none => .error .typeError
          | .ok (some (w2, h2)) =>
            .ok (mkVaricolorSymbol nb fb1 fb2 isGroup w1 h1 w2 h2)

/-! The grouping logic of `FSC_create_symbol_catalog.py`. -/

/-- Whitespace characters matched by Python's `\s` on ASCII input. -/
def isWS (c : Char) : Bool :=
  let n := c.toNat
  (9 ≤ n && n ≤ 13) || n = 32 || (28 ≤ n && n ≤ 31)

/-- ASCII decimal digit test (Python's `\d` on ASCII input). -/
def isDigitC (c : Char) : Bool :=
  let n := c.toNat
  48 ≤ n && n ≤ 57

/-- ASCII lowering of one character (`str.lower()` / `re.IGNORECASE` on
ASCII input). -/
def asciiLower (c : Char) : Char :=
  if 65 ≤ c.toNat && c.toNat ≤ 90 then Char.ofNat (c.toNat + 32) else c

/-- Case-insensitive `.png` suffix test:
`filename.lower().endswith('.png')`. -/
def pngFilter (f : Str) : Bool :=
  startsW [ 'g', 'n', 'p', '.' ] ((f.map asciiLower).reverse)

/-- `check_filename_compatibility`: strict ASCII encodability. -/
def asciiOk (f : Str) : Bool :=
  f.all (fun c => c.toNat < 128)

/-- Python substring test `pat in s`. -/
def containsSub (pat : Str) : Str → Bool
  | [] => startsW pat []
  | c :: t => startsW pat (c :: t) || containsSub pat t

/-- The literal substring `vari_` tested (case-sensitively) against the full
paths in the second pass. -/
def variLit : Str := ("vari_").toList

/-- The variant-suffix regex
`re.compile(r"(.*?)\s+vari_0[1-2]{1}\.png$", re.IGNORECASE)` applied with
`.match` (anchored at the start): succeeds when the string ends with
whitespace followed by `vari_01.png` or `vari_02.png` (letters
case-insensitive, with `$` also matching just before one trailing newline);
the captured base is everything before the maximal whitespace run preceding
the suffix, and — because `.` does not match a newline — the match fails if
that base contains a newline.
`variCore` is the suffix test on the reversed string; `variantMatch` is the
full match. -/
def variCore : List Char → Option Str
  | g :: n :: p :: dot :: d :: z :: u :: i :: r :: a :: v :: c :: rest =>
    if asciiLower g = 'g' && asciiLower n = 'n' && asciiLower p = 'p' &&
       dot = '.' && (d = '1' || d = '2') && z = '0' && u = '_' &&
       asciiLower i = 'i' && asciiLower r = 'r' && asciiLower a = 'a' &&
       asciiLower v = 'v' && isWS c then
      let base := (rest.dropWhile isWS).reverse
      if decide ('\n' ∈ base) then none else some base
    else none
  | _ => none

def variantMatch (s : Str) : Option Str :=
  variCore (if s.getLast? = some '\n' then s.dropLast else s).reverse

/-- The subgroup regex `re.compile(r"^(.*?)(\d+)$", re.IGNORECASE)` applied
with `.match`: succeeds when the string ends with at least one decimal digit
(with `$` also matching just before one trailing newline); group 1 is the
string with its maximal trailing digit run removed, and the match fails if
that group contains a newline (`.` does not match newlines).
`subgroupCore` is the trailing-digit test on the reversed string;
`subgroupMatch` is the full match. -/
def subgroupCore : List Char → Option Str
  | c :: rest =>
    if isDigitC c then
      let pre := (rest.dropWhile isDigitC).reverse
      if decide ('\n' ∈ pre) then none else some pre
    else none
  | [] => none

def subgroupMatch (s : Str) : Option Str :=
  subgroupCore (if s.getLast? = some '\n' then s.dropLast else s).reverse

/-- Index of the last occurrence of a character, as an integer with `-1`
meaning "not found" (Python `str.rfind`). -/
def lastIdx (c : Char) (s : Str) : Int :=
  match s.reverse.findIdx? (fun x => x = c) with
  | some i => (s.length : Int) - 1 - (i : Int)
  | none => -1

/-- `os.path.splitext(p)[0]` (POSIX): split at the last dot, except that
leading dots of the basename do not start an extension. -/
def splitextStem (s : Str) : Str :=
  let sepIndex := lastIdx '/' s
  let dotIndex := lastIdx '.' s
  if sepIndex < dotIndex then
    let pre := (s.take dotIndex.toNat).drop (sepIndex + 1).toNat
    if pre.any (fun ch => ch ≠ '.') then s.take dotIndex.toNat else s
  else s

/-- The directory part that `os.path.join` (POSIX) puts in front of a
relative filename. -/
def joinPre (dir : Str) : Str :=
  if dir = [] then [] else
  if dir.getLast? = some '/' then dir else dir ++ ['/']

/-- `os.path.join(dir, f)` (POSIX): an absolute `f` discards `dir`. -/
def joinPath (dir f : Str) : Str :=
  if f.head? = some '/' then f else joinPre dir ++ f

/-- Python `str.split('/')`. -/
def splitOnSlash (l : Str) : List Str :=
  l.foldr
    (fun x acc =>
      match acc with
      | cur :: rest => if x = '/' then [] :: cur :: rest else (x :: cur) :: rest
      | [] => [])
    [[]]

/-- `os.path.normpath` (POSIX): collapse repeated separators and `.`/`..`
components, preserving one or exactly two leading slashes. -/
def normpath (p : Str) : Str :=
  if p = [] then ['.']
  else
    let initialSlashes : Nat :=
      if p.head? = some '/' then
        if p.take 2 = ['/', '/'] && p.take 3 ≠ ['/', '/', '/'] then 2 else 1
      else 0
    let newComps := (splitOnSlash p).foldl
      (fun acc comp =>
        if comp = [] || comp = ['.'] then acc
        else if comp ≠ ['.', '.'] || (initialSlashes = 0 && acc = []) ||
                (acc.getLast? = some ['.', '.']) then acc ++ [comp]
        else if acc ≠ [] then acc.dropLast
        else acc)
      []
    let res := List.replicate initialSlashes '/' ++
      List.intercalate ['/'] newComps
    if res = [] then ['.'] else res

/-- Python string comparison `a < b` (lexicographic on code points). -/
def strLt : Str → Str → Bool
  | [], [] => false
  | [], _ :: _ => true
  | _ :: _, [] => false
  | a :: as, b :: bs =>
    if a.toNat < b.toNat then true
    else if b.toNat < a.toNat then false
    else strLt as bs

/-- `files.sort()` on a two-element list: ascending pair. -/
def sortPair (a b : Str) : Str × Str :=
  if strLt b a then (b, a) else (a, b)

/-- The insertion-ordered dictionary `defaultdict(list)`: an association
list from keys to the list of values appended under that key. -/
abbrev GDict := List (Str × List Str)

/-- Dictionary lookup. -/
def lookupG : GDict → Str → Option (List Str)
  | [], _ => none
  | (k, v) :: rest, key => if k = key then some v else lookupG rest key

/-- `d[key].append(v)` on a `defaultdict(list)`: appends to an existing
key's list, or adds the key at the end (Python dicts preserve insertion
order). -/
def addG (key : Str) (v : Str) : GDict → GDict
  | [] => [(key, [v])]
  | (k, vs) :: rest =>
    if k = key then (k, vs ++ [v]) :: rest else (k, vs) :: addG key v rest

/-- State built by the first pass of `process_symbol_images`. -/
structure FP where
  groups : GDict
  subV : GDict
  subN : GDict
  skipped : Nat

/-- `keyOf f`: the group key of a filename — the variant-pattern capture if
it matches, otherwise the filename stem. -/
def keyOf (f : Str) : Str :=
  match variantMatch f with
  | some base => base
  | none => splitextStem f

/-- A filename that survives both first-pass filters. -/
def accOK (f : Str) : Bool :=
  pngFilter f && asciiOk f

/-- One step of the first pass: filter non-PNG names, count and skip
non-ASCII names, then file the full path under its group key and, when the
key ends in digits, under its prefix in the variant or plain subgroup
table. -/
def fpStep (dir : Str) (st : FP) (f : Str) : FP :=
  if pngFilter f = false then st
  else if asciiOk f = false then { st with skipped := st.skipped + 1 }
  else
    let full := joinPath dir f
    match variantMatch f with
    | some base =>
      let st1 := { st with groups := addG base full st.groups }
      match subgroupMatch base with
      | some pre => { st1 with subV := addG pre full st1.subV }
      | none => st1
    | none =>
      let key := splitextStem f
      let st1 := { st with groups := addG key full st.groups }
      match subgroupMatch key with
      | some pre => { st1 with subN := addG pre full st1.subN }
      | none => st1

/-- The complete first pass over a directory listing. -/
def firstPass (dir : Str) (listing : List Str) : FP :=
  listing.foldl (fpStep dir) ⟨[], [], [], 0⟩

/-- The grouped flag of a variant pair: set when the key ends in digits and
the variant-subgroup collection for its prefix holds more than two files. -/
def variGroupFlag (subV : GDict) (key : Str) : Bool :=
  match subgroupMatch key with
  | some pre =>
    match lookupG subV pre with
    | some l => decide (2 < l.length)
    | none => false
  | none => false

/-- The grouped flag of a single symbol: set when the key ends in digits and
the plain-subgroup collection for its prefix holds more than one file. -/
def normGroupFlag (subN : GDict) (key : Str) : Bool :=
  match subgroupMatch key with
  | some pre =>
    match lookupG subN pre with
    | some l => decide (1 < l.length)
    | none => false
  | none => false

/-- A symbol emitted by `process_symbol_images`, recorded as the constructor
call that produced it (name, normalized image paths, group flag). -/
inductive Emit where
  | vari (name p1 p2 : Str) (grouped : Bool)
  | simple (name p : Str) (grouped : Bool)
deriving DecidableEq

/-- The name under which a symbol was emitted. -/
def emitName : Emit → Str
  | .vari n _ _ _ => n
  | .simple n _ _ => n

/-- The pure descriptor of what the second pass emits for one group entry
(`none` for the unhandled-cardinality warning branch). -/
def descOf (subV subN : GDict) (e : Str × List Str) : Option Emit :=
  match e.2 with
  | [a, b] =>
    if containsSub variLit a && containsSub variLit b then
      let s := sortPair a b
      some (.vari e.1 (normpath s.1) (normpath s.2) (variGroupFlag subV e.1))
    else none
  | [a] =>
    if containsSub variLit a then none
    else some (.simple e.1 (normpath a) (normGroupFlag subN e.1))
  | _ => none

/-- The second pass of `process_symbol_images`: for each group in insertion
order, a two-file all-`vari_` group is sorted and built as a varicolor
symbol, a single non-`vari_` file as a simple symbol, anything else produces
a warning; exceptions from the constructors propagate and abort the whole
pass. -/
def secondPass (fs : FileSys) (subV subN : GDict) :
    GDict → Except PyErr (List Emit × List Str)
  | [] => .ok ([], [])
  | (key, files) :: rest =>
    match files with
    | [a, b] =>
      if containsSub variLit a && containsSub variLit b then
        let s := sortPair a b
        let g := variGroupFlag subV key
        match VaricolorSymbol.init fs key (normpath s.1) (normpath s.2) g with
        | .error e => .error e
        | .ok _ =>
          match secondPass fs subV subN rest with
          | .error e => .error e
          | .ok (syms, warns) =>
            .ok (.vari key (normpath s.1) (normpath s.2) g :: syms, warns)
      else
        match secondPass fs subV subN rest with
        | .error e => .error e
        | .ok (syms, warns) => .ok (syms, key :: warns)
    | [a] =>
      if containsSub variLit a then
        match secondPass fs subV subN rest with
        | .error e => .error e
        | .ok (syms, warns) => .ok (syms, key :: warns)
      else
        let g := normGroupFlag subN key
        match SimpleSymbol.init fs key (normpath a) g with
        | .error e => .error e
        | .ok _ =>
          match secondPass fs subV subN rest with
          | .error e => .error e
          | .ok (syms, warns) => .ok (.simple key (normpath a) g :: syms, warns)
    | _ =>
      match secondPass fs subV subN rest with
      | .error e => .error e
      | .ok (syms, warns) => .ok (syms, key :: warns)

/-- The observable outcome of `process_symbol_images` on one directory:
the emitted symbols in order, the warned (dropped) group keys, and the
count of files skipped for encoding incompatibility. -/
structure ProcOut where
  symbols : List Emit
  warnings : List Str
  skipped : Nat
deriving DecidableEq

/-- `process_symbol_images(directory_path)` over a given directory listing:
first pass groups the files, second pass emits the symbols; an uncaught
exception from a symbol constructor aborts the whole call. -/
def processSymbolImages (fs : FileSys) (dir : Str) (listing : List Str) :
    Except PyErr ProcOut :=
  let st := firstPass dir listing
  match secondPass fs st.subV st.subN st.groups with
  | .error e => .error e
  | .ok (syms, warns) => .ok ⟨syms, warns, st.skipped⟩

/-! Concrete test fixtures shared by witnesses and counterexamples. -/

/-- A minimal valid PNG header: 3 × 2 pixels. -/
def pngBytes32 : List Nat :=
  [137, 80, 78, 71, 13, 10, 26, 10, 0, 0, 0, 13, 73, 72, 68, 82,
   0, 0, 0, 3, 0, 0, 0, 2]

/-- A minimal valid PNG header: 6 × 4 pixels. -/
def pngBytes64 : List Nat :=
  [137, 80, 78, 71, 13, 10, 26, 10, 0, 0, 0, 13, 73, 72, 68, 82,
   0, 0, 0, 6, 0, 0, 0, 4]

/-- A filesystem where every path is the 3 × 2 PNG. -/
def fsAllPng : FileSys := fun _ => some pngBytes32

/-- A filesystem where `d/m.png` is the 6 × 4 PNG and every other path the
3 × 2 PNG (two images of different sizes). -/
def fsTwoPng : FileSys := fun p =>
  if p = ("d/m.png").toList then some pngBytes64 else some pngBytes32

/-- A filesystem where only `d/good.png` exists. -/
def fsGoodOnly : FileSys := fun p =>
  if p = ("d/good.png").toList then some pngBytes32 else none

/-- The simple symbol built by `SimpleSymbol.init fsAllPng "A" "d/a.png" false`. -/
def wSimpleSym : SimpleSymbol :=
  mkSimpleSymbol (utf8 ("A").toList) (utf8 ("d/a.png").toList) false 3 2

/-- The varicolor symbol built from two images of different sizes. -/
def wVariSym : VaricolorSymbol :=
  mkVaricolorSymbol (utf8 ("V").toList) (utf8 ("d/a.png").toList)
    (utf8 ("d/m.png").toList) true 3 2 6 4

/-- The effect of one first-pass step on the `groups` dictionary alone. -/
def gStep (dir : Str) (A : GDict) (f : Str) : GDict :=
  if accOK f then addG (keyOf f) (joinPath dir f) A else A

/-- The full paths of the accepted files of a listing whose group key is
`k`, in listing order. -/
def pathsFor (dir k : Str) (L : List Str) : List Str :=
  (L.filter (fun f => accOK f && decide (keyOf f = k))).map (joinPath dir)

/-- Test for a varicolor symbol emitted under a given name. -/
def isVariNamed (X : Str) : Emit → Bool
  | .vari n _ _ _ => decide (n = X)
  | .simple _ _ _ => false

/-- Test for a simple symbol emitted under a given name. -/
def isSimpleNamed (X : Str) : Emit → Bool
  | .simple n _ _ => decide (n = X)
  | .vari _ _ _ _ => false

/-- A two-file variant-pair listing, deliberately in reverse order. -/
def wC3L : List Str := [("Y vari_02.png").toList, ("Y vari_01.png").toList]

/-- The outcome of processing `wC3L`. -/
def wC3out : ProcOut :=
  ⟨[.vari ("Y").toList ("w/Y vari_01.png").toList ("w/Y vari_02.png").toList
      false], [], 0⟩

/-- A listing of two plain PNG files sharing the digit-stripped prefix. -/
def wC4L : List Str := [("Rock 01.png").toList, ("Rock 02.png").toList]

/-- The outcome of processing `wC4L`. -/
def wC4out : ProcOut :=
  ⟨[.simple ("Rock 01").toList ("w/Rock 01.png").toList true,
    .simple ("Rock 02").toList ("w/Rock 02.png").toList true], [], 0⟩

/-! Byte-length lemmas for the record encoders. -/

theorem bytesLE_length (w v : Nat) : (bytesLE w v).length = w := by
  induction w generalizing v with
  | zero => rfl
  | succ n ih => simp [bytesLE, ih]

theorem padToD_length {α : Type} (w : Nat) (d : α) (l : List α) :
    (padToD w d l).length = w := by
  simp only [padToD, List.length_append, List.length_take, List.length_replicate]
  omega

theorem f32le_length (q : ℚ) : (f32le q).length = 4 :=
  bytesLE_length 4 (f32bits q)

theorem CSTUFF_encode_length (c : CSTUFF) : c.encode.length = sizeofCSTUFF := by
  simp [CSTUFF.encode, bytesLE_length, f32le_length, sizeofCSTUFF]

theorem GPOINT3_encode_length (p : GPOINT3) : p.encode.length = 12 := by
  simp [GPOINT3.encode, f32le_length]

theorem GPOINT2_encode_length (p : GPOINT2) : p.encode.length = 8 := by
  simp [GPOINT2.encode, f32le_length]

theorem RESINFO_encode_length (r : RESINFO) : r.encode.length = 12 := by
  simp [RESINFO.encode, bytesLE_length]

theorem SYMDEF_encode_length (s : SYMDEF) : s.encode.length = sizeofSYMDEF := by
  simp [SYMDEF.encode, CSTUFF_encode_length, GPOINT3_encode_length,
    bytesLE_length, padToD_length, sizeofCSTUFF, sizeofSYMDEF]

theorem Marker_encode_length (m : Marker) : m.encode.length = sizeofMarker := by
  simp [Marker.encode, bytesLE_length, sizeofMarker]

theorem flatten_map_res_length (l : List RESINFO) :
    ((l.map RESINFO.encode).flatten).length = 12 * l.length := by
  induction l with
  | nil => rfl
  | cons a t ih => simp [ih, RESINFO_encode_length]; ring

theorem flatten_map_dw_length (l : List Nat) :
    ((l.map (bytesLE 4)).flatten).length = 4 * l.length := by
  induction l with
  | nil => rfl
  | cons a t ih => simp [ih, bytesLE_length]; ring

theorem PICTR_encode_length (p : PICTR) : p.encode.length = sizeofPICTR := by
  simp only [PICTR.encode, List.length_append, flatten_map_res_length,
    flatten_map_dw_length, CSTUFF_encode_length, GPOINT2_encode_length,
    bytesLE_length, f32le_length, padToD_length, sizeofCSTUFF, sizeofPICTR]

theorem SYMINFO_encode_length (s : SYMINFO) : s.encode.length = sizeofSYMINFO := by
  simp [SYMINFO.encode, CSTUFF_encode_length, bytesLE_length, f32le_length,
    padToD_length, sizeofCSTUFF, sizeofSYMINFO]

theorem SimpleSymbol_encode_length (s : SimpleSymbol) :
    s.encode.length = 1015 := by
  simp [SimpleSymbol.encode, SYMDEF_encode_length, Marker_encode_length,
    PICTR_encode_length, SYMINFO_encode_length, sizeofSYMDEF, sizeofMarker,
    sizeofPICTR, sizeofSYMINFO]

theorem VaricolorSymbol_encode_length (v : VaricolorSymbol) :
    v.encode.length = 1526 := by
  simp [VaricolorSymbol.encode, SYMDEF_encode_length, Marker_encode_length,
    PICTR_encode_length, SYMINFO_encode_length, sizeofSYMDEF, sizeofMarker,
    sizeofPICTR, sizeofSYMINFO]

/-- Reading back a 32-bit little-endian length field recovers the value. -/
theorem readU32LE_bytesLE (v : Nat) (rest : List Nat) (hv : v < 2 ^ 32) :
    readU32LE (bytesLE 4 v ++ rest) = v := by
  simp only [bytesLE, List.cons_append, List.nil_append, readU32LE]
  omega

/-- Inversion of a successful `SimpleSymbol.init`: the dimension lookup
succeeded and the result is the pure assembly of its outputs. -/
theorem simpleInit_ok {fs : FileSys} {name file : Str} {g : Bool}
    {sym : SimpleSymbol} (h : SimpleSymbol.init fs name file g = .ok sym) :
    ∃ w hh, png_dimensions fs file = .ok (some (w, hh)) ∧
      sym = mkSimpleSymbol (utf8 name) (utf8 file) g w hh := by
  simp only [SimpleSymbol.init] at h
  split at h
  · exact absurd h (by simp)
  · split at h
    next e heq => exact absurd h (by simp)
    next heq => exact absurd h (by simp)
    next w hh heq =>
      split at h
      · exact absurd h (by simp)
      · exact ⟨w, hh, heq, (Except.ok.inj h).symm⟩

/-- Inversion of a successful `VaricolorSymbol.init`. -/
theorem variInit_ok {fs : FileSys} {name file1 file2 : Str} {g : Bool}
    {sym : VaricolorSymbol}
    (h : VaricolorSymbol.init fs name file1 file2 g = .ok sym) :
    ∃ w1 h1 w2 h2, png_dimensions fs file1 = .ok (some (w1, h1)) ∧
      png_dimensions fs file2 = .ok (some (w2, h2)) ∧
      sym = mkVaricolorSymbol (utf8 name) (utf8 file1) (utf8 file2) g
        w1 h1 w2 h2 := by
  simp only [VaricolorSymbol.init] at h
  split at h
  · exact absurd h (by simp)
  · split at h
    next e heq => exact absurd h (by simp)
    next heq => exact absurd h (by simp)
    next w1 h1 heq =>
      split at h
      · exact absurd h (by simp)
      · split at h
        · exact absurd h (by simp)
        · split at h
          next e heq2 => exact absurd h (by simp)
          next heq2 => exact absurd h (by simp)
          next w2 h2 heq2 =>
            exact ⟨w1, h1, w2, h2, heq, heq2, (Except.ok.inj h).symm⟩

theorem readU32LE_SYMDEF (s : SYMDEF) (h : s.CStuff.ERLen < 2 ^ 32) :
    readU32LE s.encode = s.CStuff.ERLen := by
  simp only [SYMDEF.encode, CSTUFF.encode, List.append_assoc]
  exact readU32LE_bytesLE _ _ h

theorem readU32LE_PICTR (p : PICTR) (h : p.CStuff.ERLen < 2 ^ 32) :
    readU32LE p.encode = p.CStuff.ERLen := by
  simp only [PICTR.encode, CSTUFF.encode, List.append_assoc]
  exact readU32LE_bytesLE _ _ h

theorem readU32LE_SYMINFO (s : SYMINFO) (h : s.CStuff.ERLen < 2 ^ 32) :
    readU32LE s.encode = s.CStuff.ERLen := by
  simp only [SYMINFO.encode, CSTUFF.encode, List.append_assoc]
  exact readU32LE_bytesLE _ _ h

theorem readU32LE_Marker (m : Marker) (h : m.ERLen < 2 ^ 32) :
    readU32LE m.encode = m.ERLen := by
  simp only [Marker.encode]
  exact readU32LE_bytesLE _ _ h

/-- C1: in every record of a constructed symbol — the symbol definition, the
picture record, the symbol info (all of which embed the entity header), and
the two markers — the record-length field written at construction equals the
total byte size of the record's encoding, and reading the length field back
from the encoded bytes recovers exactly that size. -/
theorem c1_record_length_roundtrip (fs : FileSys) (name file : Str) (g : Bool)
    (sym : SimpleSymbol) (h : SimpleSymbol.init fs name file g = .ok sym) :
    (sym.symbol_definition.CStuff.ERLen =
        (SYMDEF.encode sym.symbol_definition).length ∧
      readU32LE (SYMDEF.encode sym.symbol_definition) =
        (SYMDEF.encode sym.symbol_definition).length) ∧
    (sym.picture_info.CStuff.ERLen = (PICTR.encode sym.picture_info).length ∧
      readU32LE (PICTR.encode sym.picture_info) =
        (PICTR.encode sym.picture_info).length) ∧
    (sym.symbol_info.CStuff.ERLen = (SYMINFO.encode sym.symbol_info).length ∧
      readU32LE (SYMINFO.encode sym.symbol_info) =
        (SYMINFO.encode sym.symbol_info).length) ∧
    (sym.start_marker.ERLen = (Marker.encode sym.start_marker).length ∧
      readU32LE (Marker.encode sym.start_marker) =
        (Marker.encode sym.start_marker).length) ∧
    (sym.end_marker.ERLen = (Marker.encode sym.end_marker).length ∧
      readU32LE (Marker.encode sym.end_marker) =
        (Marker.encode sym.end_marker).length) := by
  obtain ⟨w, hh, hd, hsym⟩ := simpleInit_ok h
  subst hsym
  refine ⟨⟨?_, ?_⟩, ⟨?_, ?_⟩, ⟨?_, ?_⟩, ⟨?_, ?_⟩, ⟨?_, ?_⟩⟩
  · rw [SYMDEF_encode_length]; rfl
  · rw [SYMDEF_encode_length]
    exact readU32LE_SYMDEF _ (by show (88 : Nat) < 2 ^ 32; norm_num)
  · rw [PICTR_encode_length]; rfl
  · rw [PICTR_encode_length]
    exact readU32LE_PICTR _ (by show (511 : Nat) < 2 ^ 32; norm_num)
  · rw [SYMINFO_encode_length]; rfl
  · rw [SYMINFO_encode_length]
    exact readU32LE_SYMINFO _ (by show (406 : Nat) < 2 ^ 32; norm_num)
  · rw [Marker_encode_length]; rfl
  · rw [Marker_encode_length]
    exact readU32LE_Marker _ (by show (5 : Nat) < 2 ^ 32; norm_num)
  · rw [Marker_encode_length]; rfl
  · rw [Marker_encode_length]
    exact readU32LE_Marker _ (by show (5 : Nat) < 2 ^ 32; norm_num)

/-- Witness for C1 at a concrete construction. -/
theorem c1_witness :
    SimpleSymbol.init fsAllPng ("A").toList ("d/a.png").toList false =
      .ok wSimpleSym ∧
    wSimpleSym.symbol_definition.CStuff.ERLen =
      (SYMDEF.encode wSimpleSym.symbol_definition).length :=
  ⟨rfl, (c1_record_length_roundtrip fsAllPng ("A").toList ("d/a.png").toList
    false wSimpleSym rfl).1.1⟩

/-- C2: a constructed simple symbol serializes as the concatenation
symbol-definition, start marker, one picture record, symbol info, end
marker — with total length exactly the sum of the record sizes (no
inter-record padding) — and a varicolor symbol as the same sequence with two
picture records; both markers are 5-byte records whose encoding is the
4-byte little-endian length 5 followed by the type code, 0 for the start
marker and 1 for the end marker. -/
theorem c2_entity_sequence (fs fs' : FileSys) (nameS fileS nameV fileV1 fileV2 : Str)
    (gS gV : Bool) (s : SimpleSymbol) (v : VaricolorSymbol)
    (hs : SimpleSymbol.init fs nameS fileS gS = .ok s)
    (hv : VaricolorSymbol.init fs' nameV fileV1 fileV2 gV = .ok v) :
    (SimpleSymbol.encode s = SYMDEF.encode s.symbol_definition ++
        Marker.encode s.start_marker ++ PICTR.encode s.picture_info ++
        SYMINFO.encode s.symbol_info ++ Marker.encode s.end_marker ∧
      (SimpleSymbol.encode s).length =
        sizeofSYMDEF + sizeofMarker + sizeofPICTR + sizeofSYMINFO +
          sizeofMarker) ∧
    (VaricolorSymbol.encode v = SYMDEF.encode v.symbol_definition ++
        Marker.encode v.start_marker ++ PICTR.encode v.picture1_info ++
        PICTR.encode v.picture2_info ++ SYMINFO.encode v.symbol_info ++
        Marker.encode v.end_marker ∧
      (VaricolorSymbol.encode v).length =
        sizeofSYMDEF + sizeofMarker + sizeofPICTR + sizeofPICTR +
          sizeofSYMINFO + sizeofMarker) ∧
    (Marker.encode s.start_marker = [5, 0, 0, 0, 0] ∧
      Marker.encode s.end_marker = [5, 0, 0, 0, 1] ∧
      Marker.encode v.start_marker = [5, 0, 0, 0, 0] ∧
      Marker.encode v.end_marker = [5, 0, 0, 0, 1]) := by
  obtain ⟨w, hh, hd, hsym⟩ := simpleInit_ok hs
  obtain ⟨w1, h1, w2, h2, hd1, hd2, hvym⟩ := variInit_ok hv
  subst hsym
  subst hvym
  refine ⟨⟨?_, ?_⟩, ⟨?_, ?_⟩, ?_, ?_, ?_, ?_⟩
  · simp [SimpleSymbol.encode, List.append_assoc]
  · rw [SimpleSymbol_encode_length]; rfl
  · simp [VaricolorSymbol.encode, List.append_assoc]
  · rw [VaricolorSymbol_encode_length]; rfl
  · show Marker.encode (Marker.init 0) = [5, 0, 0, 0, 0]; rfl
  · show Marker.encode (Marker.init 1) = [5, 0, 0, 0, 1]; rfl
  · show Marker.encode (Marker.init 0) = [5, 0, 0, 0, 0]; rfl
  · show Marker.encode (Marker.init 1) = [5, 0, 0, 0, 1]; rfl

/-- Witness for C2 at concrete constructions. -/
theorem c2_witness :
    SimpleSymbol.init fsAllPng ("A").toList ("d/a.png").toList false =
      .ok wSimpleSym ∧
    VaricolorSymbol.init fsTwoPng ("V").toList ("d/a.png").toList
      ("d/m.png").toList true = .ok wVariSym ∧
    Marker.encode wSimpleSym.start_marker = [5, 0, 0, 0, 0] :=
  ⟨rfl, rfl, (c2_entity_sequence fsAllPng fsTwoPng ("A").toList
    ("d/a.png").toList ("V").toList ("d/a.png").toList ("d/m.png").toList
    false true wSimpleSym wVariSym rfl rfl).2.2.1⟩

/-- C5: every constructed varicolor symbol has the varicolor behavioral flag
set in its symbol info; its second picture record's entity-header flag byte
is `EF_CSREF` (the colorization-mask marker); and when constructed with the
grouped flag true, the symbol info additionally has the grouped behavioral
flag and both the varicolor-group and random group-behavior flags set. -/
theorem c5_varicolor_flags (fs : FileSys) (name file1 file2 : Str) (g : Bool)
    (v : VaricolorSymbol)
    (hv : VaricolorSymbol.init fs name file1 file2 g = .ok v) :
    v.symbol_info.Flags &&& SF_VARICOLOR ≠ 0 ∧
    v.picture2_info.CStuff.EFlags = EF_CSREF ∧
    (g = true → v.symbol_info.Flags &&& SF_GROUPED ≠ 0 ∧
      v.symbol_info.GFlags &&& SGF_VARICOLOR ≠ 0 ∧
      v.symbol_info.GFlags &&& SGF_RANDOM ≠ 0) := by
  obtain ⟨w1, h1, w2, h2, hd1, hd2, hvym⟩ := variInit_ok hv
  subst hvym
  refine ⟨?_, rfl, ?_⟩
  · cases g
    · show SF_VARICOLOR &&& SF_VARICOLOR ≠ 0
      decide
    · show (SF_VARICOLOR ||| SF_GROUPED) &&& SF_VARICOLOR ≠ 0
      decide
  · intro hg
    subst hg
    refine ⟨?_, ?_, ?_⟩
    · show (SF_VARICOLOR ||| SF_GROUPED) &&& SF_GROUPED ≠ 0
      decide
    · show (SGF_VARICOLOR ||| SGF_RANDOM) &&& SGF_VARICOLOR ≠ 0
      decide
    · show (SGF_VARICOLOR ||| SGF_RANDOM) &&& SGF_RANDOM ≠ 0
      decide

/-- Witness for C5 at a concrete construction. -/
theorem c5_witness :
    VaricolorSymbol.init fsTwoPng ("V").toList ("d/a.png").toList
      ("d/m.png").toList true = .ok wVariSym ∧
    wVariSym.picture2_info.CStuff.EFlags = EF_CSREF :=
  ⟨rfl, (c5_varicolor_flags fsTwoPng ("V").toList ("d/a.png").toList
    ("d/m.png").toList true wVariSym rfl).2.1⟩

/-- C6: a symbol built from a readable PNG of pixel size (w, h) has high
extent (w/40, h/40, 0) and low extent the origin; for a varicolor symbol
the extents come from the first image only, also when the second image has
different dimensions (the hypotheses leave (w2, h2) unconstrained). -/
theorem c6_extents (fs fs' : FileSys) (nameS fileS nameV fileV1 fileV2 : Str)
    (gS gV : Bool) (s : SimpleSymbol) (v : VaricolorSymbol)
    (w h w1 h1 w2 h2 : Nat)
    (hs : SimpleSymbol.init fs nameS fileS gS = .ok s)
    (hds : png_dimensions fs fileS = .ok (some (w, h)))
    (hv : VaricolorSymbol.init fs' nameV fileV1 fileV2 gV = .ok v)
    (hd1 : png_dimensions fs' fileV1 = .ok (some (w1, h1)))
    (hd2 : png_dimensions fs' fileV2 = .ok (some (w2, h2))) :
    (s.symbol_definition.Hi.x = (w : ℚ) / 40 ∧
      s.symbol_definition.Hi.y = (h : ℚ) / 40 ∧
      s.symbol_definition.Hi.z = 0 ∧
      s.symbol_definition.Low = ⟨0, 0, 0⟩) ∧
    (v.symbol_definition.Hi.x = (w1 : ℚ) / 40 ∧
      v.symbol_definition.Hi.y = (h1 : ℚ) / 40 ∧
      v.symbol_definition.Hi.z = 0 ∧
      v.symbol_definition.Low = ⟨0, 0, 0⟩) := by
  obtain ⟨w', h', hd', hsym⟩ := simpleInit_ok hs
  obtain ⟨w1', h1', w2', h2', hd1', hd2', hvym⟩ := variInit_ok hv
  rw [hd'] at hds
  rw [hd1'] at hd1
  obtain ⟨rfl, rfl⟩ : w' = w ∧ h' = h := by
    have := Except.ok.inj hds
    simp at this
    exact this
  obtain ⟨rfl, rfl⟩ : w1' = w1 ∧ h1' = h1 := by
    have := Except.ok.inj hd1
    simp at this
    exact this
  subst hsym
  subst hvym
  exact ⟨⟨rfl, rfl, rfl, rfl⟩, ⟨rfl, rfl, rfl, rfl⟩⟩

/-- Witness for C6: the varicolor symbol uses images of sizes 3 × 2 and
6 × 4, and the extents come from the 3 × 2 image. -/
theorem c6_witness :
    VaricolorSymbol.init fsTwoPng ("V").toList ("d/a.png").toList
      ("d/m.png").toList true = .ok wVariSym ∧
    wVariSym.symbol_definition.Hi.x = (3 : ℚ) / 40 :=
  ⟨rfl, (c6_extents fsAllPng fsTwoPng ("A").toList ("d/a.png").toList
    ("V").toList ("d/a.png").toList ("d/m.png").toList false true
    wSimpleSym wVariSym 3 2 3 2 6 4 rfl rfl rfl rfl rfl).2.1⟩

/-- C10: every picture record of a constructed symbol (one in a simple
symbol, both in a varicolor symbol) has zero bitmap pixel width and height,
all four resolution-info slots zeroed, the resolution-info-valid default
flag nevertheless set, and only the real-world width and height fields
carry the image dimensions divided by 40. -/
theorem c10_picture_defaults (fs fs' : FileSys)
    (nameS fileS nameV fileV1 fileV2 : Str) (gS gV : Bool)
    (s : SimpleSymbol) (v : VaricolorSymbol) (w h w1 h1 w2 h2 : Nat)
    (hs : SimpleSymbol.init fs nameS fileS gS = .ok s)
    (hds : png_dimensions fs fileS = .ok (some (w, h)))
    (hv : VaricolorSymbol.init fs' nameV fileV1 fileV2 gV = .ok v)
    (hd1 : png_dimensions fs' fileV1 = .ok (some (w1, h1)))
    (hd2 : png_dimensions fs' fileV2 = .ok (some (w2, h2))) :
    (s.picture_info.bmwid = 0 ∧ s.picture_info.bmhgt = 0 ∧
      s.picture_info.ResInfo = List.replicate 4 ⟨0, 0, 0⟩ ∧
      s.picture_info.Flags &&& PF_RESINFO_VALID ≠ 0 ∧
      s.picture_info.RWid = (w : ℚ) / 40 ∧
      s.picture_info.RHgt = (h : ℚ) / 40) ∧
    (v.picture1_info.bmwid = 0 ∧ v.picture1_info.bmhgt = 0 ∧
      v.picture1_info.ResInfo = List.replicate 4 ⟨0, 0, 0⟩ ∧
      v.picture1_info.Flags &&& PF_RESINFO_VALID ≠ 0 ∧
      v.picture1_info.RWid = (w1 : ℚ) / 40 ∧
      v.picture1_info.RHgt = (h1 : ℚ) / 40) ∧
    (v.picture2_info.bmwid = 0 ∧ v.picture2_info.bmhgt = 0 ∧
      v.picture2_info.ResInfo = List.replicate 4 ⟨0, 0, 0⟩ ∧
      v.picture2_info.Flags &&& PF_RESINFO_VALID ≠ 0 ∧
      v.picture2_info.RWid = (w2 : ℚ) / 40 ∧
      v.picture2_info.RHgt = (h2 : ℚ) / 40) := by
  obtain ⟨w', h', hd', hsym⟩ := simpleInit_ok hs
  obtain ⟨w1', h1', w2', h2', hd1', hd2', hvym⟩ := variInit_ok hv
  rw [hd'] at hds
  rw [hd1'] at hd1
  rw [hd2'] at hd2
  obtain ⟨rfl, rfl⟩ : w' = w ∧ h' = h := by
    have := Except.ok.inj hds
    simp at this
    exact this
  obtain ⟨rfl, rfl⟩ : w1' = w1 ∧ h1' = h1 := by
    have := Except.ok.inj hd1
    simp at this
    exact this
  obtain ⟨rfl, rfl⟩ : w2' = w2 ∧ h2' = h2 := by
    have := Except.ok.inj hd2
    simp at this
    exact this
  subst hsym
  subst hvym
  have hflag : (PF_NO_OUTLINE ||| PF_RESINFO_ONLY1 ||| PF_RESINFO_VALID) &&&
      PF_RESINFO_VALID ≠ 0 := by decide
  exact ⟨⟨rfl, rfl, rfl, hflag, rfl, rfl⟩,
    ⟨rfl, rfl, rfl, hflag, rfl, rfl⟩,
    ⟨rfl, rfl, rfl, hflag, rfl, rfl⟩⟩

/-- Witness for C10 at a concrete construction. -/
theorem c10_witness :
    SimpleSymbol.init fsAllPng ("A").toList ("d/a.png").toList false =
      .ok wSimpleSym ∧
    wSimpleSym.picture_info.bmwid = 0 :=
  ⟨rfl, (c10_picture_defaults fsAllPng fsTwoPng ("A").toList
    ("d/a.png").toList ("V").toList ("d/a.png").toList ("d/m.png").toList
    false true wSimpleSym wVariSym 3 2 3 2 6 4 rfl rfl rfl rfl rfl).1.1⟩

/-- C9: the catalog header serializes to exactly 128 bytes, its
compressed-flag byte is 0, its final byte is the 0xFF sentinel, and the
output stream opens with exactly the header bytes as constructed (written
first, before the info blocks and symbols, and never mutated). -/
theorem c9_catalog_header :
    (FileID.encode FileID.init).length = 128 ∧
    FileID.init.Compressed = 0 ∧
    (FileID.encode FileID.init).getLast? = some 0xFF ∧
    ∀ infoblocks symbols : List Nat,
      (catalogOutput infoblocks symbols).take 128 =
        FileID.encode FileID.init := by
  refine ⟨rfl, rfl, rfl, ?_⟩
  intro ib syms
  have h : (128 : Nat) = (FileID.encode FileID.init).length := rfl
  rw [catalogOutput, List.append_assoc, h]
  exact List.take_left _ _

/-- For ASCII strings, UTF-8 encoding is one byte per character. -/
theorem utf8_ascii_length (s : Str) (h : ∀ c ∈ s, c.toNat < 128) :
    (utf8 s).length = s.length := by
  induction s with
  | nil => rfl
  | cons c t ih =>
    have hc : c.toNat < 128 := h c (List.mem_cons_self c t)
    have ht : ∀ x ∈ t, x.toNat < 128 := fun x hx => h x (List.mem_cons_of_mem c hx)
    simp [utf8, utf8Bytes, hc] at ih ⊢
    exact ih ht

/-- C8 (amended): constructing a symbol with an ASCII name longer than 32
bytes does not complete — the assignment to the 32-byte fixed-length name
field raises `ValueError` (ctypes rejects byte strings longer than the
field), for both symbol constructors. -/
theorem c8_long_name_error (fs : FileSys) (name file1 file2 : Str) (g : Bool)
    (hlen : 32 < name.length) (hascii : ∀ c ∈ name, c.toNat < 128) :
    SimpleSymbol.init fs name file1 g = .error .valueError ∧
    VaricolorSymbol.init fs name file1 file2 g = .error .valueError := by
  have hl : 32 < (utf8 name).length := by
    rw [utf8_ascii_length name hascii]; exact hlen
  constructor
  · simp [SimpleSymbol.init, hl]
  · simp [VaricolorSymbol.init, hl]

/-- C8 counterexample: with a perfectly readable PNG, construction with a
33-byte ASCII name raises `ValueError` instead of completing with a silent
overflow, refuting the claim as stated. -/
theorem c8_counterexample :
    SimpleSymbol.init fsAllPng
      ("AAAAAAAAAAAAAAAAAAAAAAAAAAAAAAAAA").toList
      ("d/a.png").toList false = .error .valueError := rfl

/-- Witness for the amended C8 at a concrete 33-character name. -/
theorem c8_witness :
    SimpleSymbol.init fsAllPng
      ("BBBBBBBBBBBBBBBBBBBBBBBBBBBBBBBBB").toList
      ("d/b.png").toList false = .error .valueError ∧
    VaricolorSymbol.init fsAllPng
      ("BBBBBBBBBBBBBBBBBBBBBBBBBBBBBBBBB").toList
      ("d/b.png").toList ("d/m.png").toList false = .error .valueError :=
  c8_long_name_error fsAllPng
    ("BBBBBBBBBBBBBBBBBBBBBBBBBBBBBBBBB").toList
    ("d/b.png").toList ("d/m.png").toList false (by decide) (by decide)

/-- C7 (the code, not the claim): with `d/bad.png` missing and `d/good.png`
a readable PNG, the dimension-lookup failure surfaces as an uncaught
`TypeError` (`float(None)`) that aborts the whole
`process_symbol_images` call — no symbol is emitted at all, although the
good file was readable — instead of aborting only the failed symbol. -/
theorem c7_batch_abort :
    processSymbolImages fsGoodOnly ("d").toList
      [("bad.png").toList, ("good.png").toList] = .error .typeError ∧
    png_dimensions fsGoodOnly ("d/good.png").toList = .ok (some (3, 2)) :=
  ⟨rfl, rfl⟩

/-- `lookupG` after `addG` at the same key. -/
theorem lookupG_addG_same (k : Str) (v : Str) (A : GDict) :
    lookupG (addG k v A) k = some ((lookupG A k).getD [] ++ [v]) := by
  induction A with
  | nil => simp [addG, lookupG]
  | cons e t ih =>
    obtain ⟨k', vs⟩ := e
    by_cases h : k' = k
    · subst h
      simp [addG, lookupG]
    · simp [addG, lookupG, h, ih]

/-- `lookupG` after `addG` at a different key. -/
theorem lookupG_addG_ne (k k' v : Str) (A : GDict) (h : k' ≠ k) :
    lookupG (addG k v A) k' = lookupG A k' := by
  induction A with
  | nil => simp [addG, lookupG, Ne.symm h]
  | cons e t ih =>
    obtain ⟨k'', vs⟩ := e
    simp only [addG]
    by_cases h2 : k'' = k
    · subst h2
      simp only [if_pos rfl, lookupG]
      by_cases h3 : k'' = k'
      · exact absurd h3.symm h
      · simp [h3]
    · simp only [if_neg h2, lookupG]
      by_cases h3 : k'' = k'
      · simp [h3]
      · simp [h3, ih]

/-- Keys after `addG`. -/
theorem mem_keys_addG (x k v : Str) (A : GDict) :
    x ∈ (addG k v A).map Prod.fst ↔ x ∈ A.map Prod.fst ∨ x = k := by
  induction A with
  | nil => simp [addG]
  | cons e t ih =>
    obtain ⟨k', vs⟩ := e
    by_cases h : k' = k
    · subst h
      simp [addG]
      tauto
    · simp [addG, h, ih]
      tauto

/-- `addG` preserves distinctness of keys. -/
theorem nodup_keys_addG (k v : Str) (A : GDict)
    (h : (A.map Prod.fst).Nodup) : ((addG k v A).map Prod.fst).Nodup := by
  induction A with
  | nil => simp [addG]
  | cons e t ih =>
    obtain ⟨k', vs⟩ := e
    by_cases h2 : k' = k
    · subst h2
      simpa [addG] using h
    · rw [List.map_cons, List.nodup_cons] at h
      simp only [addG, if_neg h2, List.map_cons, List.nodup_cons]
      refine ⟨?_, ih h.2⟩
      intro hx
      rcases (mem_keys_addG k' k v t).mp hx with hm | he
      · exact h.1 hm
      · exact h2 he

theorem fpStep_groups (dir : Str) (st : FP) (f : Str) :
    (fpStep dir st f).groups = gStep dir st.groups f := by
  by_cases h1 : pngFilter f
  · by_cases h2 : asciiOk f
    · cases hv : variantMatch f with
      | some base =>
        cases hsm : subgroupMatch base <;>
          simp [fpStep, gStep, accOK, keyOf, h1, h2, hv, hsm]
      | none =>
        cases hsm : subgroupMatch (splitextStem f) <;>
          simp [fpStep, gStep, accOK, keyOf, h1, h2, hv, hsm]
    · simp [fpStep, gStep, accOK, h1, h2]
  · simp [fpStep, gStep, accOK, h1]

theorem foldl_fpStep_groups (dir : Str) (L : List Str) (st : FP) :
    (L.foldl (fpStep dir) st).groups = L.foldl (gStep dir) st.groups := by
  induction L generalizing st with
  | nil => rfl
  | cons f t ih => rw [List.foldl_cons, List.foldl_cons, ih, fpStep_groups]

theorem firstPass_groups (dir : Str) (L : List Str) :
    (firstPass dir L).groups = L.foldl (gStep dir) [] :=
  foldl_fpStep_groups dir L ⟨[], [], [], 0⟩

theorem lookupG_foldl_getD (dir k : Str) (L : List Str) (A : GDict) :
    (lookupG (L.foldl (gStep dir) A) k).getD [] =
      (lookupG A k).getD [] ++ pathsFor dir k L := by
  induction L generalizing A with
  | nil => simp [pathsFor]
  | cons f t ih =>
    rw [List.foldl_cons]
    by_cases ha : accOK f = true
    · by_cases hk : keyOf f = k
      · rw [ih]
        simp [gStep, ha, hk, lookupG_addG_same, pathsFor]
      · rw [ih]
        have hne := lookupG_addG_ne (keyOf f) k (joinPath dir f) A (Ne.symm hk)
        simp [gStep, ha, hne, pathsFor, hk]
    · rw [ih]
      simp [gStep, ha, pathsFor]

theorem lookupG_foldl_isSome (dir k : Str) (L : List Str) (A : GDict)
    (h : (lookupG A k).isSome = true ∨ pathsFor dir k L ≠ []) :
    (lookupG (L.foldl (gStep dir) A) k).isSome = true := by
  induction L generalizing A with
  | nil =>
    rcases h with h | h
    · simpa using h
    · simp [pathsFor] at h
  | cons f t ih =>
    rw [List.foldl_cons]
    by_cases ha : accOK f = true
    · by_cases hk : keyOf f = k
      · refine ih _ (Or.inl ?_)
        simp [gStep, ha, hk, lookupG_addG_same]
      · refine ih _ ?_
        have hne := lookupG_addG_ne (keyOf f) k (joinPath dir f) A (Ne.symm hk)
        rcases h with h | h
        · exact Or.inl (by simp [gStep, ha, hne, h])
        · refine Or.inr ?_
          simpa [pathsFor, ha, hk] using h
    · refine ih _ ?_
      rcases h with h | h
      · exact Or.inl (by simp [gStep, ha, h])
      · exact Or.inr (by simpa [pathsFor, ha] using h)

theorem lookupG_firstPass_eq (dir k : Str) (L : List Str)
    (h : pathsFor dir k L ≠ []) :
    lookupG ((firstPass dir L).groups) k = some (pathsFor dir k L) := by
  rw [firstPass_groups]
  have h1 := lookupG_foldl_getD dir k L []
  have h2 := lookupG_foldl_isSome dir k L [] (Or.inr h)
  obtain ⟨v, hv⟩ := Option.isSome_iff_exists.mp h2
  rw [hv] at h1 ⊢
  simp only [lookupG, Option.getD_some, Option.getD_none, List.nil_append] at h1
  rw [h1]

theorem nodup_keys_foldl (dir : Str) (L : List Str) (A : GDict)
    (h : (A.map Prod.fst).Nodup) :
    ((L.foldl (gStep dir) A).map Prod.fst).Nodup := by
  induction L generalizing A with
  | nil => exact h
  | cons f t ih =>
    rw [List.foldl_cons]
    refine ih _ ?_
    by_cases ha : accOK f = true
    · simpa [gStep, ha] using nodup_keys_addG (keyOf f) (joinPath dir f) A h
    · simpa [gStep, ha] using h

theorem nodup_keys_firstPass (dir : Str) (L : List Str) :
    (((firstPass dir L).groups).map Prod.fst).Nodup := by
  rw [firstPass_groups]
  exact nodup_keys_foldl dir L [] (by simp)

theorem lookupG_some_split (A : GDict) (k : Str) (v : List Str)
    (hnd : (A.map Prod.fst).Nodup) (h : lookupG A k = some v) :
    ∃ E1 E2, A = E1 ++ (k, v) :: E2 ∧ (∀ e ∈ E1, e.1 ≠ k) ∧
      (∀ e ∈ E2, e.1 ≠ k) := by
  induction A with
  | nil => simp [lookupG] at h
  | cons e t ih =>
    obtain ⟨k', vs⟩ := e
    rw [List.map_cons, List.nodup_cons] at hnd
    by_cases h2 : k' = k
    · subst h2
      simp only [lookupG, if_true, eq_self_iff_true, Option.some.injEq] at h
      subst h
      refine ⟨[], t, rfl, by simp, ?_⟩
      intro e he hk
      exact hnd.1 (List.mem_map.mpr ⟨e, he, hk⟩)
    · simp only [lookupG, if_neg h2] at h
      obtain ⟨E1, E2, hsplit, hE1, hE2⟩ := ih hnd.2 h
      refine ⟨(k', vs) :: E1, E2, by rw [List.cons_append, hsplit], ?_, hE2⟩
      intro e he
      rcases List.mem_cons.mp he with rfl | he2
      · exact h2
      · exact hE1 e he2

theorem secondPass_ok_symbols (fs : FileSys) (sV sN : GDict) (es : GDict)
    (syms : List Emit) (warns : List Str)
    (h : secondPass fs sV sN es = .ok (syms, warns)) :
    syms = es.filterMap (descOf sV sN) := by
  induction es generalizing syms warns with
  | nil =>
    simp only [secondPass, Except.ok.injEq, Prod.mk.injEq] at h
    simp [h.1]
  | cons e t ih =>
    obtain ⟨key, files⟩ := e
    rcases files with _ | ⟨a, _ | ⟨b, _ | ⟨c, rest⟩⟩⟩
    · -- [] files: warning branch
      simp only [secondPass] at h
      split at h
      · exact absurd h (by simp)
      · rename_i syms' warns' heq
        simp only [Except.ok.injEq, Prod.mk.injEq] at h
        obtain ⟨h1, h2⟩ := h
        subst h1
        simp [descOf, ih _ _ heq]
    · -- [a]
      simp only [secondPass] at h
      by_cases hc : containsSub variLit a
      · rw [if_pos hc] at h
        split at h
        · exact absurd h (by simp)
        · rename_i syms' warns' heq
          simp only [Except.ok.injEq, Prod.mk.injEq] at h
          obtain ⟨h1, h2⟩ := h
          subst h1
          simp [descOf, hc, ih _ _ heq]
      · rw [if_neg hc] at h
        split at h
        · exact absurd h (by simp)
        · rename_i sym heq2
          split at h
          · exact absurd h (by simp)
          · rename_i syms' warns' heq
            simp only [Except.ok.injEq, Prod.mk.injEq] at h
            obtain ⟨h1, h2⟩ := h
            subst h1
            simp only [List.filterMap_cons, descOf]
            rw [if_neg hc]
            simp [ih _ _ heq]
    · -- [a, b]
      simp only [secondPass] at h
      by_cases hc : (containsSub variLit a && containsSub variLit b) = true
      · rw [if_pos hc] at h
        split at h
        · exact absurd h (by simp)
        · rename_i sym heq2
          split at h
          · exact absurd h (by simp)
          · rename_i syms' warns' heq
            simp only [Except.ok.injEq, Prod.mk.injEq] at h
            obtain ⟨h1, h2⟩ := h
            subst h1
            simp only [List.filterMap_cons, descOf]
            rw [if_pos hc]
            simp [ih _ _ heq]
      · rw [if_neg hc] at h
        split at h
        · exact absurd h (by simp)
        · rename_i syms' warns' heq
          simp only [Except.ok.injEq, Prod.mk.injEq] at h
          obtain ⟨h1, h2⟩ := h
          subst h1
          simp only [List.filterMap_cons, descOf]
          rw [if_neg hc]
          simp [ih _ _ heq]
    · -- 3+ files: warning branch
      simp only [secondPass] at h
      split at h
      · exact absurd h (by simp)
      · rename_i syms' warns' heq
        simp only [Except.ok.injEq, Prod.mk.injEq] at h
        obtain ⟨h1, h2⟩ := h
        subst h1
        simp [descOf, ih _ _ heq]

theorem descOf_name (sV sN : GDict) (e : Str × List Str) (em : Emit)
    (h : descOf sV sN e = some em) : emitName em = e.1 := by
  obtain ⟨k, files⟩ := e
  rcases files with _ | ⟨a, _ | ⟨b, _ | ⟨c, rest⟩⟩⟩ <;>
    simp only [descOf] at h
  · exact absurd h (by simp)
  · split at h
    · exact absurd h (by simp)
    · simp only [Option.some.injEq] at h
      subst h
      rfl
  · split at h
    · simp only [Option.some.injEq] at h
      subst h
      rfl
    · exact absurd h (by simp)
  · exact absurd h (by simp)

theorem filter_eq_single {α : Type} (l : List α) (p : α → Bool) (b : α)
    (hnd : l.Nodup) (hb : b ∈ l) (hpb : p b = true)
    (honly : ∀ x ∈ l, p x = true → x = b) : l.filter p = [b] := by
  induction l with
  | nil => cases hb
  | cons c t ih =>
    rw [List.nodup_cons] at hnd
    by_cases hc : p c = true
    · have hcb : c = b := honly c (List.mem_cons_self c t) hc
      subst hcb
      rw [List.filter_cons_of_pos hc]
      have ht : t.filter p = [] := by
        rw [List.filter_eq_nil_iff]
        intro x hx hpx
        exact hnd.1 ((honly x (List.mem_cons_of_mem c hx) hpx) ▸ hx)
      rw [ht]
    · rw [List.filter_cons_of_neg (by simpa using hc)]
      have hbt : b ∈ t := by
        rcases List.mem_cons.mp hb with rfl | h
        · exact absurd hpb hc
        · exact h
      exact ih hnd.2 hbt fun x hx hpx =>
        honly x (List.mem_cons_of_mem c hx) hpx

theorem filter_eq_pair {α : Type} (l : List α) (p : α → Bool) (a b : α)
    (hnd : l.Nodup) (ha : a ∈ l) (hb : b ∈ l) (hab : a ≠ b)
    (hpa : p a = true) (hpb : p b = true)
    (honly : ∀ x ∈ l, p x = true → x = a ∨ x = b) :
    l.filter p = [a, b] ∨ l.filter p = [b, a] := by
  induction l with
  | nil => cases ha
  | cons c t ih =>
    rw [List.nodup_cons] at hnd
    by_cases hc : p c = true
    · rcases honly c (List.mem_cons_self c t) hc with rfl | rfl
      · -- c = a: tail filter must be [b]
        left
        rw [List.filter_cons_of_pos hc]
        have hbt : b ∈ t := by
          rcases List.mem_cons.mp hb with h | h
          · exact absurd h.symm hab
          · exact h
        rw [filter_eq_single t p b hnd.2 hbt hpb ?_]
        intro x hx hpx
        rcases honly x (List.mem_cons_of_mem c hx) hpx with rfl | rfl
        · exact absurd hx hnd.1
        · rfl
      · -- c = b: tail filter must be [a]
        right
        rw [List.filter_cons_of_pos hc]
        have hat : a ∈ t := by
          rcases List.mem_cons.mp ha with h | h
          · exact absurd h hab
          · exact h
        rw [filter_eq_single t p a hnd.2 hat hpa ?_]
        intro x hx hpx
        rcases honly x (List.mem_cons_of_mem c hx) hpx with rfl | rfl
        · rfl
        · exact absurd hx hnd.1
    · rw [List.filter_cons_of_neg (by simpa using hc)]
      have hat : a ∈ t := by
        rcases List.mem_cons.mp ha with rfl | h
        · exact absurd hpa hc
        · exact h
      have hbt : b ∈ t := by
        rcases List.mem_cons.mp hb with rfl | h
        · exact absurd hpb hc
        · exact h
      exact ih hnd.2 hat hbt fun x hx hpx =>
        honly x (List.mem_cons_of_mem c hx) hpx

theorem isVariNamed_name (X : Str) (em : Emit) (h : isVariNamed X em = true) :
    emitName em = X := by
  cases em <;> simp [isVariNamed] at h <;> simp [emitName, h]

theorem isSimpleNamed_name (X : Str) (em : Emit)
    (h : isSimpleNamed X em = true) : emitName em = X := by
  cases em <;> simp [isSimpleNamed] at h <;> simp [emitName, h]

theorem filterMap_filter_name_nil (sV sN : GDict) (es : GDict) (X : Str)
    (q : Emit → Bool) (hq : ∀ em, q em = true → emitName em = X)
    (hes : ∀ e ∈ es, e.1 ≠ X) :
    (es.filterMap (descOf sV sN)).filter q = [] := by
  induction es with
  | nil => rfl
  | cons e t ih =>
    rw [List.filterMap_cons]
    have hrest : (t.filterMap (descOf sV sN)).filter q = [] :=
      ih fun x hx => hes x (List.mem_cons_of_mem e hx)
    cases hd : descOf sV sN e with
    | none => exact hrest
    | some em =>
      rw [List.filter_cons_of_neg, hrest]
      intro hqem
      exact hes e (List.mem_cons_self e t)
        ((descOf_name sV sN e em hd) ▸ hq em (by simpa using hqem))

theorem strLt_append_cancel (P a b : Str) :
    strLt (P ++ a) (P ++ b) = strLt a b := by
  induction P with
  | nil => rfl
  | cons c t ih => simp [strLt, ih]

theorem containsSub_append (pat a b : Str) (h : containsSub pat b = true) :
    containsSub pat (a ++ b) = true := by
  induction a with
  | nil => simpa using h
  | cons c t ih =>
    rw [List.cons_append]
    show (startsW pat (c :: (t ++ b)) || containsSub pat (t ++ b)) = true
    rw [ih]
    simp

theorem dropWhile_eq_self_of_getLast (X : Str) (p : Char → Bool)
    (h : ∀ c, X.getLast? = some c → p c = false) :
    X.reverse.dropWhile p = X.reverse := by
  cases hx : X.reverse with
  | nil => rfl
  | cons c t =>
    have hc : X.getLast? = some c := by
      rw [← List.head?_reverse, hx]
      rfl
    rw [List.dropWhile_cons_of_neg]
    simp [h c hc]

theorem variantMatch_append_01 (X : Str)
    (hws : ∀ c, X.getLast? = some c → isWS c = false)
    (hnl : '\n' ∉ X) :
    variantMatch (X ++ (" vari_01.png").toList) = some X := by
  have hlast : (X ++ (" vari_01.png").toList).getLast? = some 'g' := by
    rw [List.getLast?_append_of_ne_nil X (by decide)]
    rfl
  unfold variantMatch
  rw [if_neg (by rw [hlast]; decide)]
  rw [List.reverse_append]
  show variCore ('g' :: 'n' :: 'p' :: '.' :: '1' :: '0' :: '_' :: 'i' ::
    'r' :: 'a' :: 'v' :: ' ' :: X.reverse) = some X
  rw [show variCore ('g' :: 'n' :: 'p' :: '.' :: '1' :: '0' :: '_' :: 'i' ::
      'r' :: 'a' :: 'v' :: ' ' :: X.reverse) =
      (if decide ('\n' ∈ (X.reverse.dropWhile isWS).reverse) then none
       else some (X.reverse.dropWhile isWS).reverse) from rfl]
  rw [dropWhile_eq_self_of_getLast X isWS hws, List.reverse_reverse]
  rw [if_neg (by simpa using hnl)]

theorem variantMatch_append_02 (X : Str)
    (hws : ∀ c, X.getLast? = some c → isWS c = false)
    (hnl : '\n' ∉ X) :
    variantMatch (X ++ (" vari_02.png").toList) = some X := by
  have hlast : (X ++ (" vari_02.png").toList).getLast? = some 'g' := by
    rw [List.getLast?_append_of_ne_nil X (by decide)]
    rfl
  unfold variantMatch
  rw [if_neg (by rw [hlast]; decide)]
  rw [List.reverse_append]
  show variCore ('g' :: 'n' :: 'p' :: '.' :: '2' :: '0' :: '_' :: 'i' ::
    'r' :: 'a' :: 'v' :: ' ' :: X.reverse) = some X
  rw [show variCore ('g' :: 'n' :: 'p' :: '.' :: '2' :: '0' :: '_' :: 'i' ::
      'r' :: 'a' :: 'v' :: ' ' :: X.reverse) =
      (if decide ('\n' ∈ (X.reverse.dropWhile isWS).reverse) then none
       else some (X.reverse.dropWhile isWS).reverse) from rfl]
  rw [dropWhile_eq_self_of_getLast X isWS hws, List.reverse_reverse]
  rw [if_neg (by simpa using hnl)]

theorem pngFilter_append_vari01 (X : Str) :
    pngFilter (X ++ (" vari_01.png").toList) = true := by
  simp only [pngFilter, List.map_append, List.reverse_append]
  rfl

theorem pngFilter_append_vari02 (X : Str) :
    pngFilter (X ++ (" vari_02.png").toList) = true := by
  simp only [pngFilter, List.map_append, List.reverse_append]
  rfl

theorem asciiOk_append (X Y : Str) (hX : ∀ c ∈ X, c.toNat < 128)
    (hY : asciiOk Y = true) : asciiOk (X ++ Y) = true := by
  simp only [asciiOk, List.all_append, Bool.and_eq_true]
  constructor
  · rw [List.all_eq_true]
    intro c hc
    simpa using hX c hc
  · exact hY

theorem head?_append_ne_slash (X Y : Str) (hsep : '/' ∉ X)
    (hY : Y.head? ≠ some '/') : (X ++ Y).head? ≠ some '/' := by
  cases X with
  | nil => simpa using hY
  | cons c t =>
    rw [List.cons_append]
    intro hh
    rw [List.head?_cons] at hh
    have hc : c = '/' := Option.some.inj hh
    subst hc
    exact hsep (List.mem_cons_self _ _)

theorem joinPath_not_abs (dir f : Str) (hf : f.head? ≠ some '/') :
    joinPath dir f = joinPre dir ++ f := by
  rw [joinPath, if_neg hf]

/-- C3 (amended): for an ASCII base name X with no trailing whitespace, no
newline, and no path separator, if the directory listing contains the pair
`X vari_01.png` / `X vari_02.png` — in either listing order — and no other
accepted PNG maps to group key X, then a successful run emits exactly one
varicolor symbol for key X, with the vari_01 file as image 1 (color source)
and the vari_02 file as image 2 (mask) after the lexicographic sort of the
pair.  (As stated the claim is false: another PNG sharing key X makes the
group unhandled and no varicolor symbol is emitted — see
`c3_counterexample`.) -/
theorem c3_varicolor_pair_grouping (fs : FileSys) (dir : Str) (L : List Str) (X : Str)
    (out : ProcOut)
    (hascii : ∀ c ∈ X, c.toNat < 128)
    (hsep : '/' ∉ X)
    (hnl : '\n' ∉ X)
    (hws : ∀ c, X.getLast? = some c → isWS c = false)
    (hnodup : L.Nodup)
    (hm1 : X ++ (" vari_01.png").toList ∈ L)
    (hm2 : X ++ (" vari_02.png").toList ∈ L)
    (huniq : ∀ f ∈ L, accOK f = true → keyOf f = X →
      f = X ++ (" vari_01.png").toList ∨ f = X ++ (" vari_02.png").toList)
    (hok : processSymbolImages fs dir L = .ok out) :
    out.symbols.filter (isVariNamed X) =
      [.vari X (normpath (joinPath dir (X ++ (" vari_01.png").toList)))
        (normpath (joinPath dir (X ++ (" vari_02.png").toList)))
        (variGroupFlag (firstPass dir L).subV X)] := by
  have hk1 : keyOf (X ++ (" vari_01.png").toList) = X := by
    simp only [keyOf]
    rw [variantMatch_append_01 X hws hnl]
  have hk2 : keyOf (X ++ (" vari_02.png").toList) = X := by
    simp only [keyOf]
    rw [variantMatch_append_02 X hws hnl]
  have ha1 : accOK (X ++ (" vari_01.png").toList) = true := by
    simp only [accOK]
    rw [pngFilter_append_vari01,
      asciiOk_append X ((" vari_01.png").toList) hascii (by decide)]
    rfl
  have ha2 : accOK (X ++ (" vari_02.png").toList) = true := by
    simp only [accOK]
    rw [pngFilter_append_vari02,
      asciiOk_append X ((" vari_02.png").toList) hascii (by decide)]
    rfl
  have hne : X ++ (" vari_01.png").toList ≠ X ++ (" vari_02.png").toList := by
    intro h
    exact absurd (List.append_cancel_left h) (by decide)
  have hpair := filter_eq_pair L (fun f => accOK f && decide (keyOf f = X))
    _ _ hnodup hm1 hm2 hne
    (by simp only [Bool.and_eq_true, decide_eq_true_eq]; exact ⟨ha1, hk1⟩)
    (by simp only [Bool.and_eq_true, decide_eq_true_eq]; exact ⟨ha2, hk2⟩)
    (fun x hx hpx => by
      simp only [Bool.and_eq_true, decide_eq_true_eq] at hpx
      exact huniq x hx hpx.1 hpx.2)
  have hj1 : joinPath dir (X ++ (" vari_01.png").toList) =
      joinPre dir ++ (X ++ (" vari_01.png").toList) :=
    joinPath_not_abs dir _ (head?_append_ne_slash X _ hsep (by decide))
  have hj2 : joinPath dir (X ++ (" vari_02.png").toList) =
      joinPre dir ++ (X ++ (" vari_02.png").toList) :=
    joinPath_not_abs dir _ (head?_append_ne_slash X _ hsep (by decide))
  have hlt12 : strLt (joinPath dir (X ++ (" vari_01.png").toList))
      (joinPath dir (X ++ (" vari_02.png").toList)) = true := by
    rw [hj1, hj2, ← List.append_assoc, ← List.append_assoc,
      strLt_append_cancel]
    decide
  have hlt21 : strLt (joinPath dir (X ++ (" vari_02.png").toList))
      (joinPath dir (X ++ (" vari_01.png").toList)) = false := by
    rw [hj1, hj2, ← List.append_assoc, ← List.append_assoc,
      strLt_append_cancel]
    decide
  have hc1 : containsSub variLit
      (joinPath dir (X ++ (" vari_01.png").toList)) = true := by
    rw [hj1]
    exact containsSub_append _ _ _ (containsSub_append _ X _ (by decide))
  have hc2 : containsSub variLit
      (joinPath dir (X ++ (" vari_02.png").toList)) = true := by
    rw [hj2]
    exact containsSub_append _ _ _ (containsSub_append _ X _ (by decide))
  have hpf : pathsFor dir X L =
      [joinPath dir (X ++ (" vari_01.png").toList),
       joinPath dir (X ++ (" vari_02.png").toList)] ∨
      pathsFor dir X L =
      [joinPath dir (X ++ (" vari_02.png").toList),
       joinPath dir (X ++ (" vari_01.png").toList)] := by
    rcases hpair with h | h
    · left; simp [pathsFor, h]
    · right; simp [pathsFor, h]
  have hnonempty : pathsFor dir X L ≠ [] := by
    rcases hpf with h | h <;> simp [h]
  have hlk := lookupG_firstPass_eq dir X L hnonempty
  obtain ⟨E1, E2, hsplit, hE1, hE2⟩ :=
    lookupG_some_split _ X _ (nodup_keys_firstPass dir L) hlk
  simp only [processSymbolImages] at hok
  split at hok
  · exact absurd hok (by simp)
  · rename_i syms warns heq
    have hout := Except.ok.inj hok
    subst hout
    have hsyms := secondPass_ok_symbols fs _ _ _ _ _ heq
    show syms.filter (isVariNamed X) = _
    rw [hsyms, hsplit, List.filterMap_append, List.filterMap_cons,
      List.filter_append]
    rw [filterMap_filter_name_nil _ _ E1 X _ (isVariNamed_name X)
      (fun e he => hE1 e he)]
    have htail : ∀ o : Option Emit, o = none ∨
        (o = some (.vari X
          (normpath (joinPath dir (X ++ (" vari_01.png").toList)))
          (normpath (joinPath dir (X ++ (" vari_02.png").toList)))
          (variGroupFlag (firstPass dir L).subV X))) →
        True := fun _ _ => trivial
    have hdesc : descOf (firstPass dir L).subV (firstPass dir L).subN
        (X, pathsFor dir X L) = some (.vari X
          (normpath (joinPath dir (X ++ (" vari_01.png").toList)))
          (normpath (joinPath dir (X ++ (" vari_02.png").toList)))
          (variGroupFlag (firstPass dir L).subV X)) := by
      rcases hpf with hcase | hcase
      · rw [hcase]
        simp only [descOf]
        rw [if_pos (by rw [hc1, hc2]; rfl)]
        simp only [sortPair]
        rw [hlt21]
        simp
      · rw [hcase]
        simp only [descOf]
        rw [if_pos (by rw [hc2, hc1]; rfl)]
        simp only [sortPair]
        rw [hlt12]
        simp
    rw [hdesc]
    rw [List.filter_cons_of_pos (by simp [isVariNamed])]
    rw [filterMap_filter_name_nil _ _ E2 X _ (isVariNamed_name X)
      (fun e he => hE2 e he)]
    simp

/-- C4 (amended): for a PNG filename that does not match the
case-insensitive variant pattern and whose full joined path does not
contain the substring `vari_`, sharing its group key (its stem) with no
other accepted file, a successful run emits exactly one simple symbol keyed
by the filename stem, and its grouped flag is set exactly when the stem
ends in digits and the plain-subgroup collection for the stem's non-digit
prefix has more than one member.  (As stated the claim is false: the code
tests `vari_` against the full path, and a file like `A VARI_01.png`
contains no `vari_` yet matches the variant pattern, so its simple symbol
is keyed `A`, not the stem — see `c4_counterexample`.) -/
theorem c4_single_symbol_grouping (fs : FileSys) (dir : Str) (L : List Str) (f : Str)
    (out : ProcOut)
    (hacc : accOK f = true)
    (hvm : variantMatch f = none)
    (hpath : containsSub variLit (joinPath dir f) = false)
    (hnodup : L.Nodup)
    (hm : f ∈ L)
    (huniq : ∀ x ∈ L, accOK x = true → keyOf x = splitextStem f → x = f)
    (hok : processSymbolImages fs dir L = .ok out) :
    out.symbols.filter (isSimpleNamed (splitextStem f)) =
      [.simple (splitextStem f) (normpath (joinPath dir f))
        (normGroupFlag (firstPass dir L).subN (splitextStem f))] ∧
    (normGroupFlag (firstPass dir L).subN (splitextStem f) = true ↔
      ∃ pre, subgroupMatch (splitextStem f) = some pre ∧
        1 < ((lookupG (firstPass dir L).subN pre).getD []).length) := by
  have hkey : keyOf f = splitextStem f := by
    simp only [keyOf]
    rw [hvm]
  constructor
  · have hsingle := filter_eq_single L
      (fun x => accOK x && decide (keyOf x = splitextStem f)) f hnodup hm
      (by simp only [Bool.and_eq_true, decide_eq_true_eq]; exact ⟨hacc, hkey⟩)
      (fun x hx hpx => by
        simp only [Bool.and_eq_true, decide_eq_true_eq] at hpx
        exact huniq x hx hpx.1 hpx.2)
    have hpf : pathsFor dir (splitextStem f) L = [joinPath dir f] := by
      simp only [pathsFor, hsingle, List.map_cons, List.map_nil]
    have hlk := lookupG_firstPass_eq dir (splitextStem f) L (by simp [hpf])
    rw [hpf] at hlk
    obtain ⟨E1, E2, hsplit, hE1, hE2⟩ :=
      lookupG_some_split _ _ _ (nodup_keys_firstPass dir L) hlk
    simp only [processSymbolImages] at hok
    split at hok
    · exact absurd hok (by simp)
    · rename_i syms warns heq
      have hout := Except.ok.inj hok
      subst hout
      have hsyms := secondPass_ok_symbols fs _ _ _ _ _ heq
      show syms.filter _ = _
      rw [hsyms, hsplit, List.filterMap_append, List.filterMap_cons,
        List.filter_append]
      rw [filterMap_filter_name_nil _ _ E1 _ _ (isSimpleNamed_name _)
        (fun e he => hE1 e he)]
      have hdesc : descOf (firstPass dir L).subV (firstPass dir L).subN
          (splitextStem f, [joinPath dir f]) =
          some (.simple (splitextStem f) (normpath (joinPath dir f))
            (normGroupFlag (firstPass dir L).subN (splitextStem f))) := by
        simp only [descOf]
        rw [hpath]
        simp
      rw [hdesc]
      rw [List.filter_cons_of_pos (by simp [isSimpleNamed])]
      rw [filterMap_filter_name_nil _ _ E2 _ _ (isSimpleNamed_name _)
        (fun e he => hE2 e he)]
      simp
  · unfold normGroupFlag
    cases hsm : subgroupMatch (splitextStem f) with
    | none => simp
    | some pre =>
      cases hlkp : lookupG (firstPass dir L).subN pre with
      | none => simp [hlkp]
      | some l => simp [hlkp]

theorem c3_witness :
    processSymbolImages fsAllPng ("w").toList wC3L = .ok wC3out ∧
    wC3out.symbols.filter (isVariNamed (("Y").toList)) =
      [.vari (("Y").toList)
        (normpath (joinPath (("w").toList)
          ((("Y").toList) ++ (" vari_01.png").toList)))
        (normpath (joinPath (("w").toList)
          ((("Y").toList) ++ (" vari_02.png").toList)))
        (variGroupFlag (firstPass (("w").toList) wC3L).subV (("Y").toList))] :=
  ⟨rfl,
    c3_varicolor_pair_grouping fsAllPng (("w").toList) wC3L (("Y").toList) wC3out
      (by decide) (by decide) (by decide)
      (by
        intro c hc
        have h2 : ((("Y").toList)).getLast? = some 'Y' := rfl
        rw [h2] at hc
        have h3 : c = 'Y' := (Option.some.inj hc).symm
        subst h3
        rfl)
      (by decide) (by decide) (by decide)
      (by
        intro f hf h1 h2
        rcases List.mem_cons.mp hf with h | h
        · right; rw [h]; rfl
        · rcases List.mem_cons.mp h with h4 | h4
          · left; rw [h4]; rfl
          · cases h4)
      rfl⟩

theorem c4_witness :
    processSymbolImages fsAllPng ("w").toList wC4L = .ok wC4out ∧
    wC4out.symbols.filter (isSimpleNamed (splitextStem (("Rock 01.png").toList))) =
      [.simple (splitextStem (("Rock 01.png").toList))
        (normpath (joinPath (("w").toList) (("Rock 01.png").toList)))
        (normGroupFlag (firstPass (("w").toList) wC4L).subN
          (splitextStem (("Rock 01.png").toList)))] :=
  ⟨rfl,
    (c4_single_symbol_grouping fsAllPng (("w").toList) wC4L (("Rock 01.png").toList) wC4out
      (by decide) (by decide) (by decide) (by decide) (by decide)
      (by
        intro x hx h1 h2
        rcases List.mem_cons.mp hx with h | h
        · exact h
        · rcases List.mem_cons.mp h with h4 | h4
          · rw [h4] at h2
            exact absurd h2 (by decide)
          · cases h4)
      rfl).1⟩

/-- C3 counterexample: a directory with the valid pair `X vari_01.png` /
`X vari_02.png` plus `X.png` (which shares group key X) emits zero
varicolor symbols for key X — the three-file group is dropped with a
warning — refuting the claim as stated. -/
theorem c3_counterexample :
    (processSymbolImages fsAllPng ("d").toList
      [("X vari_01.png").toList, ("X vari_02.png").toList,
        ("X.png").toList]).map
      (fun o => (o.symbols.filter (isVariNamed (("X").toList)), o.warnings)) =
    .ok ([], [("X").toList]) := rfl

/-- C4 counterexample: the single file `A VARI_01.png` does not contain
`vari_` and shares its key with no other file, yet the emitted simple
symbol is keyed `A` (the case-insensitive variant capture), not the
filename stem `A VARI_01` — refuting the claim as stated. -/
theorem c4_counterexample :
    (processSymbolImages fsAllPng ("d").toList [("A VARI_01.png").toList]).map
      (fun o => (o.symbols, o.symbols.filter
        (isSimpleNamed (splitextStem (("A VARI_01.png").toList))))) =
    .ok ([.simple (("A").toList) (("d/A VARI_01.png").toList) false], []) := rfl
